import Mathlib

/-!
Verification of the PyWebPulse browsing-speed benchmarker against its
natural-language specification.

The development shallowly embeds the Python sources:
 * `selenium_utils.measure_load_time` — the timing sampler (`measure_load_time`);
 * `worker.TestWorker.run` — the run orchestrator (`TestWorker_run`), modelled as a
   pure function from an environment (per-URL session-setup outcomes, per-run driver
   behaviours, a cooperative cancellation flag) to the list of Qt signals it emits;
 * `gui.SpeedBenchmarkerApp.generate_summary_report` and the JSON branch of
   `gui.SpeedBenchmarkerApp.export_report` — the report aggregator;
 * `settings_manager.load_settings` — the settings store.

Machine reals (Python floats) are modelled as exact rationals: all arithmetic the
claims evaluate (means, medians, perfect-square standard deviations, two-decimal
rounding of exact values) is exact in floating point as well, so the models agree
with the code on every value a claim touches.
-/

/-- A Python exception escaping a Selenium call inside `measure_load_time`'s `try`
block. `TimeoutException` (a `WebDriverException` subclass) is caught first in the
source, so the three handlers are disjoint and an inductive models them faithfully. -/
inductive PyExc where
  | timeoutExc : PyExc
  | webDriverExc (msg : String) : PyExc
  | otherExc (msg : String) : PyExc
deriving DecidableEq

/-- The dictionary returned by `window.performance.timing.toJSON()`. The source reads
each key with `timing_data.get(key, 0)`; the browser API always defines these keys, so
they are plain integer fields here (a missing key is the value 0). -/
structure TimingData where
  navigationStart : Int
  fetchStart : Int
  domainLookupStart : Int
  domainLookupEnd : Int
  connectStart : Int
  connectEnd : Int
  requestStart : Int
  responseStart : Int
  domInteractive : Int
  domContentLoadedEventEnd : Int
  domComplete : Int
  loadEventStart : Int
  loadEventEnd : Int
deriving DecidableEq

/-- The derived `navigation_timing` dictionary built in `selenium_utils.py`
lines 185-199. -/
structure NavTimingOut where
  navigation_start : Int
  fetch_start : Int
  dns_lookup_time : Int
  connect_time : Int
  ttfb : Int
  dom_interactive : Int
  dom_content_loaded : Int
  dom_complete : Int
  load_event_start : Int
  load_event_end : Int
  total_load_from_nav_start : Int
  dom_processing_time : Int
deriving DecidableEq

/-- Value stored in the `navigation_timing` result field: either the computed
breakdown, or the `{"error": str(e)}` marker written when extraction raises
(`selenium_utils.py` line 202). -/
inductive NavTimingVal where
  | timingData (nt : NavTimingOut) : NavTimingVal
  | errMark (msg : String) : NavTimingVal
deriving DecidableEq

/-- A JSON-representable settings value, as stored in `settings.json` and in the
configuration dictionary (`settings_manager.DEFAULT_SETTINGS`): strings, integers,
booleans and lists of strings cover every key the program reads or writes. -/
inductive SVal where
  | vStr (s : String) : SVal
  | vInt (i : Int) : SVal
  | vBool (b : Bool) : SVal
  | vStrList (xs : List String) : SVal
deriving DecidableEq

/-- A per-run result dictionary. `measure_load_time` builds the first six fields
(`selenium_utils.py` lines 135-142); `TestWorker.run` then adds `run_number` and a
copy of the configuration dictionary (`worker.py` lines 125-126), modelled here as
fields that `measure_load_time` leaves at `0` / `[]`. Python `None` is `Option.none`. -/
structure RunResult where
  url : String
  load_time_ms : ℚ
  status : String
  error_message : Option String
  navigation_timing : Option NavTimingVal
  timestamp : ℚ
  run_number : Nat
  config : List (String × SVal)
deriving DecidableEq

/-- The observable behaviour of one driver session during one `measure_load_time`
call: the outcome of `driver.get` (`none` = returns normally), the outcomes of the
two bounded waits, the outcome of the timing-extraction script, the elapsed
wall-clock milliseconds read at the success point (line 174) and at the `finally`
block (line 222), and the `time.time()` value read at entry (line 141). -/
structure DriverBehavior where
  navigate : Option PyExc
  waitReady : Option PyExc
  waitLoadEnd : Option PyExc
  extractTiming : Except String (Option TimingData)
  elapsedSuccessMs : ℚ
  elapsedErrorMs : ℚ
  timestamp : ℚ

/-- The wait-strategy dispatch of `selenium_utils.py` lines 152-172: `ReadyState`
waits on the ready-state predicate, `LoadEventEnd` on the load-event predicate,
`Combined` on both in sequence (the first failure wins), and any other string raises
`ValueError(f"Invalid wait_strategy: {wait_strategy}")`, whose `str()` is its
message. -/
def waitPhase (b : DriverBehavior) (wait_strategy : String) : Option PyExc :=
  if wait_strategy = "ReadyState" then b.waitReady
  else if wait_strategy = "LoadEventEnd" then b.waitLoadEnd
  else if wait_strategy = "Combined" then
    match b.waitReady with
    | some e => some e
    | none => b.waitLoadEnd
  else some (.otherExc ("Invalid wait_strategy: " ++ wait_strategy))

/-- The `navigation_timing` dictionary computed at `selenium_utils.py` lines 185-199.
Python integer truthiness (`if timing_data.get('loadEventEnd', 0)`) is `≠ 0`. -/
def navTimingOfData (t : TimingData) : NavTimingOut :=
  { navigation_start := t.navigationStart
    fetch_start := t.fetchStart
    dns_lookup_time := t.domainLookupEnd - t.domainLookupStart
    connect_time := t.connectEnd - t.connectStart
    ttfb := t.responseStart - t.requestStart
    dom_interactive := t.domInteractive
    dom_content_loaded := t.domContentLoadedEventEnd
    dom_complete := t.domComplete
    load_event_start := t.loadEventStart
    load_event_end := t.loadEventEnd
    total_load_from_nav_start :=
      if t.loadEventEnd ≠ 0 then t.loadEventEnd - t.navigationStart else -1
    dom_processing_time :=
      if t.domInteractive ≠ 0 ∧ t.domComplete ≠ 0
      then t.domComplete - t.domInteractive else -1 }

/-- `selenium_utils.measure_load_time` (lines 133-225). The result dictionary starts
as Error / sentinel -1 / None; the `try` body navigates, runs the strategy waits, and on success
records the elapsed time, sets Success, and best-effort extracts the timing
breakdown (an extraction exception only writes the error marker, line 202). The
three `except` clauses map each escaped exception to an error message, and the
`finally` block (lines 219-223) overwrites the `-1` sentinel with the elapsed
time-to-failure whenever the status is Error. -/
def measure_load_time (b : DriverBehavior) (url : String) (timeout : Nat)
    (wait_strategy : String) : RunResult :=
  let base : RunResult :=
    { url := url, load_time_ms := -1, status := "Error", error_message := none
      navigation_timing := none, timestamp := b.timestamp
      run_number := 0, config := [] }
  let results : RunResult :=
    match (match b.navigate with
           | some e => some e
           | none => waitPhase b wait_strategy) with
    | none =>
      let r1 := { base with load_time_ms := b.elapsedSuccessMs, status := "Success" }
      match b.extractTiming with
      | .ok (some td) =>
        if 0 < td.navigationStart
        then { r1 with navigation_timing := some (.timingData (navTimingOfData td)) }
        else r1
      | .ok none => r1
      | .error msg => { r1 with navigation_timing := some (.errMark msg) }
    | some .timeoutExc =>
      { base with
          error_message := some ("Timeout after " ++ toString timeout ++
            " seconds waiting for page load (" ++ wait_strategy ++ " strategy).") }
    | some (.webDriverExc m) =>
      { base with error_message := some ("WebDriver error: " ++ m) }
    | some (.otherExc m) =>
      { base with error_message := some ("Unexpected error: " ++ m) }
  if results.load_time_ms < 0 ∧ results.status = "Error"
  then { results with load_time_ms := b.elapsedErrorMs }
  else results

/-! ## The run orchestrator (`worker.TestWorker.run`)

The worker is a `QThread` emitting six Qt signals; its only inputs besides the URL
list and the configuration are the outcomes of the external calls it makes (DNS
benchmark, driver setup, measurements, driver quit) and the value of the cooperative
cancellation flag `self._is_running` at each of the points where the code reads it.

The flag is written asynchronously by `TestWorker.stop` and only ever goes from
`True` to `False`.  Observable state changes between two consecutive flag reads are
exactly result emissions and measurement completions, so a cancellation schedule is
modelled as a function `flag : Nat → Nat → Bool` of the pair (results emitted so
far, measurements completed so far): two reads with no emission or measurement
between them see the same pair, exactly as two reads with no intervening observable
action are indistinguishable in the source. -/

/-- One Qt signal emission of `TestWorker` (`worker.py` lines 12-17).  The payload of
`dns_results_ready` is abstracted to its error component: no claim inspects it. -/
inductive Event where
  | progress (current total : Nat) : Event
  | status (msg : String) : Event
  | result (r : RunResult) : Event
  | finished : Event
  | errorOccurred (msg : String) : Event
  | dnsResults (err : Option String) : Event
deriving DecidableEq

/-- The orchestrator-relevant configuration: the URL list passed to `TestWorker`
and the values the worker extracts from the configuration dictionary
(`worker.py` lines 21-30), plus the dictionary itself, a copy of which is attached
to every result (`worker.py` lines 104, 126). -/
structure WorkerCtx where
  urls : List String
  config : List (String × SVal)
  runs_per_url : Nat
  timeout : Nat
  wait_strategy : String
  run_dns_benchmark : Bool

/-- The outcomes of the worker's external calls: the DNS benchmark, per-URL-index
driver setup (`some msg` = `setup_driver` raised with `str(e) = msg`), the driver
behaviour of each (URL index, run index) measurement, per-URL-index `driver.quit`
outcome, and the `time.time()` stamps used in setup-failure error results. -/
structure WorkerBehavior where
  dns : Except String Unit
  setup : Nat → Option String
  meas : Nat → Nat → DriverBehavior
  quitErr : Nat → Option String
  errTs : Nat → Nat → ℚ

/-- The worker-loop state: the `current_step` progress counter and the two
observable-action counters indexing the cancellation flag. -/
structure WState where
  step : Nat
  emitted : Nat
  measured : Nat

/-- The measurement result of run `j` (0-based) on URL index `i`, tagged with
`run_number` and the configuration copy as in `worker.py` lines 122-126. -/
def taggedMeasure (ctx : WorkerCtx) (bhv : WorkerBehavior) (i j : Nat)
    (u : String) : RunResult :=
  { measure_load_time (bhv.meas i j) u ctx.timeout ctx.wait_strategy with
      run_number := j + 1, config := ctx.config }

/-- The error result emitted for run `j` (0-based) of a URL whose driver setup
raised `e` (`worker.py` lines 96-105). -/
def setupErrorResult (ctx : WorkerCtx) (u e : String) (ts : ℚ) (j : Nat) : RunResult :=
  { url := u, load_time_ms := -1, status := "Error"
    error_message := some ("Driver setup failed: " ++ e)
    navigation_timing := none, timestamp := ts
    run_number := j + 1, config := ctx.config }

/-- The message of the `error_occurred` signal on a setup failure
(`worker.py` line 87). -/
def fatalMsg (u e : String) : String :=
  "Fatal Error initializing driver for " ++ u ++ ": " ++ e

/-- The setup-failure loop (`worker.py` lines 93-106): one progress and one error
result per planned run, with no cancellation check.  `rem` counts the remaining
iterations, `j` is the 0-based run index, of URL index `i`. -/
def errorLoop (ctx : WorkerCtx) (bhv : WorkerBehavior) (total : Nat) (u e : String)
    (i : Nat) : Nat → Nat → WState → List Event × WState
  | 0, _, st => ([], st)
  | rem + 1, j, st =>
    let st1 : WState := { st with step := st.step + 1 }
    let st2 : WState := { st1 with emitted := st1.emitted + 1 }
    let rest := errorLoop ctx bhv total u e i rem (j + 1) st2
    (Event.progress st1.step total ::
       Event.result (setupErrorResult ctx u e (bhv.errTs i j) j) :: rest.1,
     rest.2)

/-- The per-URL measurement loop (`worker.py` lines 112-144): each iteration checks
the flag (line 113), emits progress and a status, calls `measure_load_time`, checks
the flag again (line 130) and only then emits the result; the browser-state reset
(lines 136-141) catches its own exceptions and emits nothing. -/
def runsLoop (ctx : WorkerCtx) (bhv : WorkerBehavior) (flag : Nat → Nat → Bool)
    (total : Nat) (u : String) (i : Nat) : Nat → Nat → WState → List Event × WState
  | 0, _, st => ([], st)
  | rem + 1, j, st =>
    if flag st.emitted st.measured then
      let st1 : WState := { st with step := st.step + 1 }
      let evs1 : List Event :=
        [Event.progress st1.step total,
         Event.status ("Running test " ++ toString (j + 1) ++ "/" ++
           toString ctx.runs_per_url ++ " for " ++ u ++ "...")]
      let r := taggedMeasure ctx bhv i j u
      let st2 : WState := { st1 with measured := st1.measured + 1 }
      if flag st2.emitted st2.measured then
        let st3 : WState := { st2 with emitted := st2.emitted + 1 }
        let rest := runsLoop ctx bhv flag total u i rem (j + 1) st3
        (evs1 ++ Event.result r :: rest.1, rest.2)
      else (evs1, st2)
    else ([], st)

/-- The outer URL loop (`worker.py` lines 63-160): check the flag (line 64), set up
the driver, dispatch to the setup-failure loop (which `continue`s to the next URL)
or to the measurement loop followed by `driver.quit` and the flag check of
line 158. -/
def urlLoop (ctx : WorkerCtx) (bhv : WorkerBehavior) (flag : Nat → Nat → Bool)
    (total : Nat) : List String → Nat → WState → List Event × WState
  | [], _, st => ([], st)
  | u :: rest, i, st =>
    if flag st.emitted st.measured then
      let initEv := Event.status ("Initializing driver for " ++ u ++ "...")
      match bhv.setup i with
      | some e =>
        let m := fatalMsg u e
        let errs := errorLoop ctx bhv total u e i ctx.runs_per_url 0 st
        let after := urlLoop ctx bhv flag total rest (i + 1) errs.2
        (initEv :: Event.status m :: Event.errorOccurred m :: (errs.1 ++ after.1),
         after.2)
      | none =>
        let evsHead : List Event :=
          [initEv, Event.status ("Driver ready for " ++ u ++ "."),
           Event.status ("Testing URL: " ++ u ++ " (" ++
             toString ctx.runs_per_url ++ " runs)")]
        let runs := runsLoop ctx bhv flag total u i ctx.runs_per_url 0 st
        let quitEv : Event :=
          match bhv.quitErr i with
          | none => Event.status ("Browser driver closed for " ++ u ++ ".")
          | some qe =>
            Event.status ("Warning: Error quitting driver for " ++ u ++ ": " ++ qe)
        if flag runs.2.emitted runs.2.measured then
          let after := urlLoop ctx bhv flag total rest (i + 1) runs.2
          (evsHead ++ runs.1 ++ quitEv :: after.1, after.2)
        else (evsHead ++ runs.1 ++ [quitEv], runs.2)
    else ([Event.status "Test stopped by user."], st)

/-- The optional DNS-benchmark phase (`worker.py` lines 40-52): a status, then on
success the DNS results followed by a status, on failure an error status followed by
the degraded single-entry result. -/
def dnsPhase (bhv : WorkerBehavior) (runDns : Bool) : List Event :=
  if runDns then
    Event.status "Running DNS latency benchmark..." ::
      (match bhv.dns with
       | .ok _ => [Event.dnsResults none, Event.status "DNS benchmark finished."]
       | .error e =>
         [Event.status ("Error during DNS benchmark: " ++ e),
          Event.dnsResults (some e)])
  else []

/-- `TestWorker.run` (`worker.py` lines 34-166) as the list of signals it emits.
After the DNS phase the flag is read (line 55); a cancelled run emits a status and
`finished` and returns (lines 56-58).  Otherwise the URL loop runs, the flag is
read once more (line 164) to decide the "Testing finished." status, and `finished`
is emitted (line 166).  Both return paths end with exactly one `finished`, which the
final append makes explicit. -/
def TestWorker_run (ctx : WorkerCtx) (bhv : WorkerBehavior)
    (flag : Nat → Nat → Bool) : List Event :=
  let total := ctx.urls.length * ctx.runs_per_url
  let st0 : WState := ⟨0, 0, 0⟩
  let body : List Event :=
    if flag 0 0 then
      let main := urlLoop ctx bhv flag total ctx.urls 0 st0
      (Event.status "Starting Browse speed tests..." :: main.1) ++
        (if flag main.2.emitted main.2.measured
         then [Event.status "Testing finished."] else [])
    else [Event.status "Test stopped after DNS benchmark."]
  dnsPhase bhv ctx.run_dns_benchmark ++ body ++ [Event.finished]

/-- The results carried by the `result_ready` emissions of a trace, in order. -/
def resultsOf (evs : List Event) : List RunResult :=
  evs.filterMap fun ev =>
    match ev with
    | .result r => some r
    | _ => none

/-- The messages carried by the `error_occurred` emissions of a trace, in order. -/
def fatalsOf (evs : List Event) : List String :=
  evs.filterMap fun ev =>
    match ev with
    | .errorOccurred m => some m
    | _ => none

/-- Whether an event is the `finished` signal. -/
def isFinished : Event → Bool
  | .finished => true
  | _ => false

/-- Number of `finished` signals in a trace. -/
def countFinished (evs : List Event) : Nat := evs.countP isFinished

/-- The never-cancelled flag: `stop` is never called. -/
def noStop : Nat → Nat → Bool := fun _ _ => true

/-- The result batch the worker produces for URL `u` at index `i`: `runs_per_url`
identical-message error results if its setup fails, otherwise the `runs_per_url`
tagged measurements. -/
def expectedBlock (ctx : WorkerCtx) (bhv : WorkerBehavior) (i : Nat)
    (u : String) : List RunResult :=
  match bhv.setup i with
  | some e =>
    (List.range ctx.runs_per_url).map fun j => setupErrorResult ctx u e (bhv.errTs i j) j
  | none =>
    (List.range ctx.runs_per_url).map fun j => taggedMeasure ctx bhv i j u

/-- URL-major, run-minor concatenation of the expected result batches, starting at
URL index `i`. -/
def expectedResultsFrom (ctx : WorkerCtx) (bhv : WorkerBehavior) :
    List String → Nat → List RunResult
  | [], _ => []
  | u :: rest, i => expectedBlock ctx bhv i u ++ expectedResultsFrom ctx bhv rest (i + 1)

/-- The full uncancelled result sequence of a run. -/
def expectedResults (ctx : WorkerCtx) (bhv : WorkerBehavior) : List RunResult :=
  expectedResultsFrom ctx bhv ctx.urls 0

/-- The expected `error_occurred` messages, one per URL whose setup fails, starting
at URL index `i`. -/
def expectedFatalsFrom (bhv : WorkerBehavior) : List String → Nat → List String
  | [], _ => []
  | u :: rest, i =>
    (match bhv.setup i with
     | some e => [fatalMsg u e]
     | none => []) ++ expectedFatalsFrom bhv rest (i + 1)

/-! ## The report aggregator (`gui.SpeedBenchmarkerApp.generate_summary_report`)

Python's `statistics.mean`/`median` are exact on the rationals; `statistics.stdev`
is the square root of the exact sample variance, modelled by `Rat.sqrt`, which
agrees with the floating-point square root on perfect squares — the only values at
which a claim evaluates it.  `round(x, 2)` is modelled as exact banker's rounding
(round half to even) to two decimals; no value a claim evaluates lies on a half
or suffers binary-representation drift. -/

/-- Python `round(q, 2)`: scale by 100, round half to even, scale back. -/
def pyRound2 (q : ℚ) : ℚ :=
  let y : ℚ := q * 100
  let n : ℤ :=
    if Int.fract y = 1 / 2 then (if 2 ∣ ⌊y⌋ then ⌊y⌋ else ⌊y⌋ + 1)
    else round y
  (n : ℚ) / 100

/-- Python `min` over a list of numbers (callers only use it on non-empty lists). -/
def pyMinList : List ℚ → ℚ
  | [] => 0
  | x :: xs => xs.foldl min x

/-- Python `max` over a list of numbers (callers only use it on non-empty lists). -/
def pyMaxList : List ℚ → ℚ
  | [] => 0
  | x :: xs => xs.foldl max x

/-- `statistics.mean`: the exact arithmetic mean. -/
def pyMean (l : List ℚ) : ℚ := l.sum / (l.length : ℚ)

/-- `statistics.median`: sort, take the middle element (odd length) or the mean of
the two middle elements (even length). -/
def pyMedian (l : List ℚ) : ℚ :=
  let s := List.insertionSort (· ≤ ·) l
  let n := s.length
  if n % 2 = 1 then s.getD (n / 2) 0
  else (s.getD (n / 2 - 1) 0 + s.getD (n / 2) 0) / 2

/-- `statistics.stdev`: the square root of the sample variance (denominator
`n - 1`).  The floating-point square root is modelled by the exact rational square
root `Rat.sqrt`; they agree whenever the variance is a perfect square. -/
def sampleStdev (l : List ℚ) : ℚ :=
  let m := pyMean l
  Rat.sqrt ((l.map fun x => (x - m) ^ 2).sum / ((l.length : ℚ) - 1))

/-- A numeric summary field: a number, or the `'N/A'` marker used when a URL has no
successful run. -/
inductive StatVal where
  | val (q : ℚ) : StatVal
  | na : StatVal
deriving DecidableEq

/-- One per-URL summary dictionary (`gui.py` lines 404-426). -/
structure UrlSummary where
  url : String
  num_successful_runs : Nat
  num_errors : Nat
  avg_load_time_ms : StatVal
  min_load_time_ms : StatVal
  max_load_time_ms : StatVal
  median_load_time_ms : StatVal
  std_dev_load_time_ms : StatVal
  error_messages : List String
deriving DecidableEq

/-- The load times the summary aggregates for URL `u`: the `load_time_ms` of the
Success-status results for `u` whose load time is non-negative
(`gui.py` lines 398, 401). -/
def successLoadTimes (results_data : List RunResult) (u : String) : List ℚ :=
  ((results_data.filter fun r => r.url == u && r.status == "Success").filter
      fun r => 0 ≤ r.load_time_ms).map fun r => r.load_time_ms

/-- The Error-status results for URL `u` (`gui.py` line 399). -/
def urlErrors (results_data : List RunResult) (u : String) : List RunResult :=
  results_data.filter fun r => r.url == u && r.status == "Error"

/-- The summary entry computed for one URL (`gui.py` lines 397-426).  Python's
`e.get('error_message', 'Unknown Error')` reads an optional field with a default,
modelled as `Option.getD`. -/
def summaryForUrl (results_data : List RunResult) (u : String) : UrlSummary :=
  let load_times := successLoadTimes results_data u
  let url_errors := urlErrors results_data u
  if load_times ≠ [] then
    { url := u
      num_successful_runs := load_times.length
      num_errors := url_errors.length
      avg_load_time_ms := .val (pyRound2 (pyMean load_times))
      min_load_time_ms := .val (pyRound2 (pyMinList load_times))
      max_load_time_ms := .val (pyRound2 (pyMaxList load_times))
      median_load_time_ms := .val (pyRound2 (pyMedian load_times))
      std_dev_load_time_ms :=
        if 1 < load_times.length then .val (pyRound2 (sampleStdev load_times))
        else .val 0
      error_messages := url_errors.map fun e => e.error_message.getD "Unknown Error" }
  else
    { url := u
      num_successful_runs := 0
      num_errors := url_errors.length
      avg_load_time_ms := .na
      min_load_time_ms := .na
      max_load_time_ms := .na
      median_load_time_ms := .na
      std_dev_load_time_ms := .na
      error_messages := url_errors.map fun e => e.error_message.getD "Unknown Error" }

/-- The distinct URLs of the result sequence in sorted order:
`sorted(list(set(r['url'] for r in self.results_data)))` (`gui.py` line 395). -/
def sortedUrls (results_data : List RunResult) : List String :=
  List.insertionSort (· ≤ ·) (results_data.map fun r => r.url).dedup

/-- `generate_summary_report` (`gui.py` lines 389-427): the empty input yields the
empty summary; otherwise one entry per distinct URL, iterated in sorted order
(a Python dict preserves insertion order, so an association list in iteration
order). -/
def generate_summary_report (results_data : List RunResult) :
    List (String × UrlSummary) :=
  if results_data = [] then []
  else (sortedUrls results_data).map fun u => (u, summaryForUrl results_data u)

/-! ## The JSON export (`gui.SpeedBenchmarkerApp.export_report`, JSON branch)

`json.dump` writes the export dictionary and `json.load` reads it back; for the
finite string-keyed data involved this pair is the identity at the JSON-value
level, so "export then reparse" is modelled as the constructed JSON value itself,
and reparsing the raw results into run-result records is a by-key decoder
(insensitive to object field order, as a JSON object reader is). -/

/-- A JSON value. -/
inductive JVal where
  | jnull : JVal
  | jbool (b : Bool) : JVal
  | jnum (q : ℚ) : JVal
  | jstr (s : String) : JVal
  | jarr (xs : List JVal) : JVal
  | jobj (kvs : List (String × JVal)) : JVal

/-- JSON encoding of a settings value. -/
def encodeSVal : SVal → JVal
  | .vStr s => .jstr s
  | .vInt i => .jnum (i : ℚ)
  | .vBool b => .jbool b
  | .vStrList xs => .jarr (xs.map .jstr)

/-- Effectful map over `Option`, with definitional equations (the `traverse` a
JSON reader performs element-wise). -/
def mapOption {α β : Type} (f : α → Option β) : List α → Option (List β)
  | [] => some []
  | a :: l =>
    match f a, mapOption f l with
    | some b, some bs => some (b :: bs)
    | _, _ => none

/-- JSON decoding of a settings value (partial inverse of `encodeSVal`). -/
def decodeSVal : JVal → Option SVal
  | .jstr s => some (.vStr s)
  | .jnum q => if q.den = 1 then some (.vInt q.num) else none
  | .jbool b => some (.vBool b)
  | .jarr xs =>
    (mapOption (fun j =>
      match j with
      | JVal.jstr s => some s
      | _ => none) xs).map .vStrList
  | _ => none

/-- JSON encoding of the navigation-timing breakdown. -/
def encodeNavTimingOut (nt : NavTimingOut) : JVal :=
  .jobj
    [("navigation_start", .jnum (nt.navigation_start : ℚ)),
     ("fetch_start", .jnum (nt.fetch_start : ℚ)),
     ("dns_lookup_time", .jnum (nt.dns_lookup_time : ℚ)),
     ("connect_time", .jnum (nt.connect_time : ℚ)),
     ("ttfb", .jnum (nt.ttfb : ℚ)),
     ("dom_interactive", .jnum (nt.dom_interactive : ℚ)),
     ("dom_content_loaded", .jnum (nt.dom_content_loaded : ℚ)),
     ("dom_complete", .jnum (nt.dom_complete : ℚ)),
     ("load_event_start", .jnum (nt.load_event_start : ℚ)),
     ("load_event_end", .jnum (nt.load_event_end : ℚ)),
     ("total_load_from_nav_start", .jnum (nt.total_load_from_nav_start : ℚ)),
     ("dom_processing_time", .jnum (nt.dom_processing_time : ℚ))]

/-- JSON encoding of the `navigation_timing` field. -/
def encodeNavVal : NavTimingVal → JVal
  | .timingData nt => encodeNavTimingOut nt
  | .errMark m => .jobj [("error", .jstr m)]

/-- Read an integer-valued JSON number. -/
def jInt : Option JVal → Option Int
  | some (.jnum q) => if q.den = 1 then some q.num else none
  | _ => none

/-- JSON decoding of the navigation-timing breakdown by key. -/
def decodeNavVal (j : JVal) : Option NavTimingVal :=
  match j with
  | .jobj kvs =>
    match kvs.lookup "error" with
    | some (.jstr m) => some (.errMark m)
    | _ =>
      match jInt (kvs.lookup "navigation_start"), jInt (kvs.lookup "fetch_start"),
          jInt (kvs.lookup "dns_lookup_time"), jInt (kvs.lookup "connect_time"),
          jInt (kvs.lookup "ttfb"), jInt (kvs.lookup "dom_interactive"),
          jInt (kvs.lookup "dom_content_loaded"), jInt (kvs.lookup "dom_complete"),
          jInt (kvs.lookup "load_event_start"), jInt (kvs.lookup "load_event_end"),
          jInt (kvs.lookup "total_load_from_nav_start"),
          jInt (kvs.lookup "dom_processing_time") with
      | some a, some b, some c, some d, some e, some f, some g, some h, some i,
          some jj, some k, some l =>
        some (.timingData ⟨a, b, c, d, e, f, g, h, i, jj, k, l⟩)
      | _, _, _, _, _, _, _, _, _, _, _, _ => none
  | _ => none

/-- The JSON object field list of one run result. -/
def runResultFields (r : RunResult) : List (String × JVal) :=
  [("url", .jstr r.url),
   ("load_time_ms", .jnum r.load_time_ms),
   ("status", .jstr r.status),
   ("error_message",
     match r.error_message with
     | none => JVal.jnull
     | some m => JVal.jstr m),
   ("navigation_timing",
     match r.navigation_timing with
     | none => JVal.jnull
     | some v => encodeNavVal v),
   ("timestamp", .jnum r.timestamp),
   ("run_number", .jnum (r.run_number : ℚ)),
   ("config", .jobj (r.config.map fun kv => (kv.1, encodeSVal kv.2)))]

/-- JSON encoding of one run result. -/
def encodeRunResult (r : RunResult) : JVal := .jobj (runResultFields r)

/-- JSON decoding of one run result by key (the inverse of `encodeRunResult`,
insensitive to the order of the object's fields). -/
def decodeRunResult (j : JVal) : Option RunResult :=
  match j with
  | .jobj kvs =>
    match kvs.lookup "url", kvs.lookup "load_time_ms", kvs.lookup "status",
        kvs.lookup "error_message", kvs.lookup "navigation_timing",
        kvs.lookup "timestamp", kvs.lookup "run_number", kvs.lookup "config" with
    | some (.jstr url), some (.jnum lt), some (.jstr st), some em, some nav,
        some (.jnum ts), some (.jnum rn), some (.jobj cfg) =>
      let em? : Option (Option String) :=
        match em with
        | JVal.jnull => some none
        | JVal.jstr m => some (some m)
        | _ => none
      let nav? : Option (Option NavTimingVal) :=
        match nav with
        | JVal.jnull => some none
        | v => (decodeNavVal v).map some
      let cfg? : Option (List (String × SVal)) :=
        mapOption (fun kv => (decodeSVal kv.2).map fun v => (kv.1, v)) cfg
      match em?, nav?, cfg? with
      | some em, some nav, some cfg =>
        if rn.den = 1 ∧ 0 ≤ rn.num then
          some { url := url, load_time_ms := lt, status := st, error_message := em
                 navigation_timing := nav, timestamp := ts
                 run_number := rn.num.toNat, config := cfg }
        else none
      | _, _, _ => none
    | _, _, _, _, _, _, _, _ => none
  | _ => none

/-- JSON encoding of one summary entry. -/
def encodeUrlSummary (s : UrlSummary) : JVal :=
  .jobj
    [("url", .jstr s.url),
     ("num_successful_runs", .jnum (s.num_successful_runs : ℚ)),
     ("num_errors", .jnum (s.num_errors : ℚ)),
     ("avg_load_time_ms",
       match s.avg_load_time_ms with
       | .val q => JVal.jnum q
       | .na => JVal.jstr "N/A"),
     ("min_load_time_ms",
       match s.min_load_time_ms with
       | .val q => JVal.jnum q
       | .na => JVal.jstr "N/A"),
     ("max_load_time_ms",
       match s.max_load_time_ms with
       | .val q => JVal.jnum q
       | .na => JVal.jstr "N/A"),
     ("median_load_time_ms",
       match s.median_load_time_ms with
       | .val q => JVal.jnum q
       | .na => JVal.jstr "N/A"),
     ("std_dev_load_time_ms",
       match s.std_dev_load_time_ms with
       | .val q => JVal.jnum q
       | .na => JVal.jstr "N/A"),
     ("error_messages", .jarr (s.error_messages.map .jstr))]

/-- The JSON export object built at `gui.py` lines 488-492: the summary report, the
raw results verbatim, and the settings dictionary minus its `results` key. -/
def export_report_json (settings : List (String × SVal))
    (results_data : List RunResult) : JVal :=
  .jobj
    [("summary_report",
       .jobj ((generate_summary_report results_data).map fun kv =>
         (kv.1, encodeUrlSummary kv.2))),
     ("raw_results", .jarr (results_data.map encodeRunResult)),
     ("test_configuration",
       .jobj ((settings.filter fun kv => kv.1 ≠ "results").map fun kv =>
         (kv.1, encodeSVal kv.2)))]

/-- The field names of a JSON object. -/
def jKeys : JVal → List String
  | .jobj kvs => kvs.map Prod.fst
  | _ => []

/-- Field access on a JSON object. -/
def jLookup (j : JVal) (k : String) : Option JVal :=
  match j with
  | .jobj kvs => kvs.lookup k
  | _ => none

/-- Reparse the `raw_results` member of a reloaded report. -/
def decodeRawResults : Option JVal → Option (List RunResult)
  | some (.jarr xs) => mapOption decodeRunResult xs
  | _ => none

/-! ## The settings store (`settings_manager.load_settings`) -/

/-- The state of `settings.json` on disk: absent, unparseable (or unreadable), or a
parsed key-value record. -/
inductive SettingsFile where
  | missing : SettingsFile
  | corrupt : SettingsFile
  | stored (kvs : List (String × SVal)) : SettingsFile

/-- `settings_manager.DEFAULT_SETTINGS` (lines 6-21). -/
def DEFAULT_SETTINGS : List (String × SVal) :=
  [("urls", .vStrList ["https://www.google.com", "https://www.wikipedia.org",
     "https://github.com"]),
   ("runs_per_url", .vInt 3),
   ("browser", .vStr "Chrome"),
   ("headless", .vBool false),
   ("timeout_seconds", .vInt 60),
   ("wait_strategy", .vStr "Combined"),
   ("anti_detection_enabled", .vBool true),
   ("export_format", .vStr "CSV"),
   ("results", .vStrList [])]

/-- The back-fill loop of `load_settings` (`settings_manager.py` lines 36-39): for
each default key in order, if the loaded record lacks it, append it (Python dict
insertion appends) and remember that an update happened. -/
def backfillAux : List (String × SVal) → List (String × SVal) × Bool →
    List (String × SVal) × Bool
  | [], acc => acc
  | (k, v) :: ds, (s, upd) =>
    if s.lookup k = none then backfillAux ds (s ++ [(k, v)], true)
    else backfillAux ds (s, upd)

/-- `settings_manager.load_settings` (lines 25-46) as a function of the on-disk
state, returning the settings it hands to the caller and the resulting on-disk
state: a missing file is created with the defaults; a parsed file is back-filled
with any missing default keys and rewritten if one was missing; an unparseable or
unreadable file falls back to the full defaults without touching the file. -/
def load_settings : SettingsFile → List (String × SVal) × SettingsFile
  | .missing => (DEFAULT_SETTINGS, .stored DEFAULT_SETTINGS)
  | .corrupt => (DEFAULT_SETTINGS, .corrupt)
  | .stored kvs =>
    let r := backfillAux DEFAULT_SETTINGS (kvs, false)
    (r.1, if r.2 then .stored r.1 else .stored kvs)

/-! ## Concrete fixtures used by witnesses and counterexamples -/

/-- A driver session on which every call succeeds: 120 ms measured load time, 50 ms
elapsed at the `finally` block, entry timestamp 7. -/
def db0 : DriverBehavior :=
  { navigate := none, waitReady := none, waitLoadEnd := none
    extractTiming := .ok none, elapsedSuccessMs := 120, elapsedErrorMs := 50
    timestamp := 7 }

/-- A driver session whose ready-state wait times out. -/
def dbT : DriverBehavior := { db0 with waitReady := some .timeoutExc }

/-- A worker environment in which everything succeeds. -/
def wBhv0 : WorkerBehavior :=
  { dns := .ok (), setup := fun _ => none, meas := fun _ _ => db0
    quitErr := fun _ => none, errTs := fun _ _ => 0 }

/-- A worker environment in which driver setup fails for the first URL with
message `boom` and succeeds for the rest. -/
def wBhvFail : WorkerBehavior :=
  { wBhv0 with setup := fun i => if i = 0 then some "boom" else none }

/-- Two URLs, two runs per URL, no DNS phase. -/
def ctx2 : WorkerCtx :=
  { urls := ["a", "b"], config := [], runs_per_url := 2, timeout := 60
    wait_strategy := "Combined", run_dns_benchmark := false }

/-- One URL, two runs per URL, no DNS phase. -/
def ctx1 : WorkerCtx :=
  { urls := ["a"], config := [], runs_per_url := 2, timeout := 60
    wait_strategy := "Combined", run_dns_benchmark := false }

/-- The cancellation schedule in which `stop` is called at the moment the `k`-th
result is emitted: every flag read taken while fewer than `k` results have been
emitted returns `True`, every later read returns `False`. -/
def stopAfter (k : Nat) : Nat → Nat → Bool := fun e _ => decide (e < k)

/-- A successful run result for URL `u` with the given load time and run number. -/
def exR (t : ℚ) (n : Nat) : RunResult :=
  { url := "u", load_time_ms := t, status := "Success", error_message := none
    navigation_timing := none, timestamp := 0, run_number := n, config := [] }

/-- The three-success example of the specification: load times 100, 200, 300. -/
def exResults : List RunResult := [exR 100 1, exR 200 2, exR 300 3]

/-- The summary entry the specification's example promises for `exResults`. -/
def exSummary : UrlSummary :=
  { url := "u", num_successful_runs := 3, num_errors := 0
    avg_load_time_ms := .val 200, min_load_time_ms := .val 100
    max_load_time_ms := .val 300, median_load_time_ms := .val 200
    std_dev_load_time_ms := .val 100, error_messages := [] }

/-- An error-only result for URL `u` (a timed-out run). -/
def exErr : RunResult :=
  { url := "u", load_time_ms := 50, status := "Error"
    error_message := some "Timeout after 60 seconds waiting for page load (Combined strategy)."
    navigation_timing := none, timestamp := 0, run_number := 1, config := [] }

/-! ## Theorems -/

/-- Claim C4: when the bounded wait of `measure_load_time` times out, the result has
status Error, an error message naming both the timeout value and the wait strategy
(in particular naming `Combined` when that strategy's ready-state phase times out),
and `load_time_ms` equal to the elapsed time until failure rather than the `-1`
sentinel. -/
theorem claim_C4_timeout_result :
    (∀ (b : DriverBehavior) (url : String) (t : Nat) (ws : String),
      b.navigate = none → waitPhase b ws = some .timeoutExc → 0 ≤ b.elapsedErrorMs →
      (measure_load_time b url t ws).status = "Error" ∧
      (measure_load_time b url t ws).error_message =
        some ("Timeout after " ++ toString t ++
          " seconds waiting for page load (" ++ ws ++ " strategy).") ∧
      (measure_load_time b url t ws).load_time_ms = b.elapsedErrorMs ∧
      (measure_load_time b url t ws).load_time_ms ≠ -1) ∧
    (∀ (b : DriverBehavior) (url : String) (t : Nat),
      b.navigate = none → b.waitReady = some .timeoutExc →
      (measure_load_time b url t "Combined").error_message =
        some ("Timeout after " ++ toString t ++
          " seconds waiting for page load (" ++ "Combined" ++ " strategy).")) := by
  constructor
  · intro b url t ws hnav hwait helapsed
    have hm : measure_load_time b url t ws =
        { url := url, load_time_ms := b.elapsedErrorMs, status := "Error"
          error_message := some ("Timeout after " ++ toString t ++
            " seconds waiting for page load (" ++ ws ++ " strategy).")
          navigation_timing := none, timestamp := b.timestamp
          run_number := 0, config := [] } := by
      simp only [measure_load_time, hnav, hwait]
      norm_num
    refine ⟨by rw [hm], by rw [hm], by rw [hm], ?_⟩
    rw [hm]
    intro hc
    simp only at hc
    rw [hc] at helapsed
    norm_num at helapsed
  · intro b url t hnav hready
    have hwait : waitPhase b "Combined" = some .timeoutExc := by
      simp [waitPhase, hready]
    simp only [measure_load_time, hnav, hwait]
    norm_num

/-- Witness for C4: a session whose ready-state wait times out under the Combined
strategy with a 60-second timeout. -/
theorem claim_C4_timeout_result_witness :
    (measure_load_time dbT "https://example.com" 60 "Combined").status = "Error" ∧
    (measure_load_time dbT "https://example.com" 60 "Combined").error_message =
      some ("Timeout after " ++ toString 60 ++
        " seconds waiting for page load (" ++ "Combined" ++ " strategy).") ∧
    (measure_load_time dbT "https://example.com" 60 "Combined").load_time_ms =
      dbT.elapsedErrorMs ∧
    (measure_load_time dbT "https://example.com" 60 "Combined").load_time_ms ≠ -1 :=
  claim_C4_timeout_result.1 dbT "https://example.com" 60 "Combined"
    rfl (by decide) (by decide)

/-- Claim C5: `measure_load_time` is total at its boundary — for every session
behaviour it returns a result whose status is Success or Error — and a
timing-extraction failure after a successful load only writes the error marker into
the optional `navigation_timing` field, never changing the Success status. -/
theorem claim_C5_boundary_total :
    ∀ (b : DriverBehavior) (url : String) (t : Nat) (ws : String),
      ((measure_load_time b url t ws).status = "Success" ∨
       (measure_load_time b url t ws).status = "Error") ∧
      (b.navigate = none → waitPhase b ws = none →
        (measure_load_time b url t ws).status = "Success" ∧
        ∀ msg, b.extractTiming = .error msg →
          (measure_load_time b url t ws).navigation_timing =
            some (.errMark msg)) := by
  intro b url t ws
  constructor
  · rcases hn : (match b.navigate with
        | some e => some e
        | none => waitPhase b ws) with _ | e
    · left
      simp only [measure_load_time, hn]
      rcases b.extractTiming with msg | td
      · simp
      · rcases td with _ | td
        · simp
        · by_cases hns : 0 < td.navigationStart <;> simp [hns]
    · right
      rcases e with _ | m | m <;> simp [measure_load_time, hn]
  · intro hnav hwait
    have hn : (match b.navigate with
        | some e => some e
        | none => waitPhase b ws) = none := by rw [hnav, hwait]
    constructor
    · simp only [measure_load_time, hn]
      rcases b.extractTiming with msg | td
      · simp
      · rcases td with _ | td
        · simp
        · by_cases hns : 0 < td.navigationStart <;> simp [hns]
    · intro msg hext
      simp [measure_load_time, hn, hext]

/-- Witness for C5: a fully successful navigation whose timing extraction raises
with message `script error`. -/
theorem claim_C5_boundary_total_witness :
    ((measure_load_time { db0 with extractTiming := .error "script error" }
        "https://example.com" 60 "ReadyState").status = "Success" ∨
     (measure_load_time { db0 with extractTiming := .error "script error" }
        "https://example.com" 60 "ReadyState").status = "Error") ∧
    (measure_load_time { db0 with extractTiming := .error "script error" }
        "https://example.com" 60 "ReadyState").status = "Success" ∧
    (measure_load_time { db0 with extractTiming := .error "script error" }
        "https://example.com" 60 "ReadyState").navigation_timing =
      some (.errMark "script error") := by
  have h := claim_C5_boundary_total
    { db0 with extractTiming := .error "script error" }
    "https://example.com" 60 "ReadyState"
  exact ⟨h.1, (h.2 rfl (by decide)).1, (h.2 rfl (by decide)).2 "script error" rfl⟩

/-- Claim C10: an unrecognised wait strategy does not propagate the internal
`ValueError`: once navigation returns, `measure_load_time` yields a normal result
with status Error and an error message containing `Invalid wait_strategy`. -/
theorem claim_C10_invalid_strategy :
    ∀ (b : DriverBehavior) (url : String) (t : Nat) (ws : String),
      ws ≠ "ReadyState" → ws ≠ "LoadEventEnd" → ws ≠ "Combined" →
      b.navigate = none →
      (measure_load_time b url t ws).status = "Error" ∧
      (measure_load_time b url t ws).error_message =
        some ("Unexpected error: " ++ ("Invalid wait_strategy: " ++ ws)) := by
  intro b url t ws h1 h2 h3 hnav
  have hwait : waitPhase b ws = some (.otherExc ("Invalid wait_strategy: " ++ ws)) := by
    simp [waitPhase, h1, h2, h3]
  simp [measure_load_time, hnav, hwait]

/-- Witness for C10: the strategy string `Bogus`. -/
theorem claim_C10_invalid_strategy_witness :
    (measure_load_time db0 "https://example.com" 60 "Bogus").status = "Error" ∧
    (measure_load_time db0 "https://example.com" 60 "Bogus").error_message =
      some ("Unexpected error: " ++ ("Invalid wait_strategy: " ++ "Bogus")) :=
  claim_C10_invalid_strategy db0 "https://example.com" 60 "Bogus"
    (by decide) (by decide) (by decide) rfl

/-! ### Worker-loop lemmas -/

/-- `resultsOf` distributes over trace concatenation. -/
theorem resultsOf_append (a b : List Event) :
    resultsOf (a ++ b) = resultsOf a ++ resultsOf b :=
  List.filterMap_append a b _

/-- `fatalsOf` distributes over trace concatenation. -/
theorem fatalsOf_append (a b : List Event) :
    fatalsOf (a ++ b) = fatalsOf a ++ fatalsOf b :=
  List.filterMap_append a b _

/-- `countFinished` distributes over trace concatenation. -/
theorem countFinished_append (a b : List Event) :
    countFinished (a ++ b) = countFinished a + countFinished b :=
  List.countP_append _ _ _

/-- The setup-failure loop emits exactly its planned error results, one per
remaining run index. -/
theorem resultsOf_errorLoop (ctx : WorkerCtx) (bhv : WorkerBehavior) (total : Nat)
    (u e : String) (i : Nat) :
    ∀ (rem j : Nat) (st : WState),
      resultsOf (errorLoop ctx bhv total u e i rem j st).1 =
        (List.range' j rem).map fun j' =>
          setupErrorResult ctx u e (bhv.errTs i j') j' := by
  intro rem
  induction rem with
  | zero => intro j st; simp [errorLoop, resultsOf]
  | succ n ih =>
    intro j st
    simp [errorLoop, resultsOf, List.range'_succ] at *
    exact ih (j + 1) _

/-- The measurement loop, never cancelled, emits exactly the tagged measurements of
the remaining run indices. -/
theorem resultsOf_runsLoop_noStop (ctx : WorkerCtx) (bhv : WorkerBehavior)
    (total : Nat) (u : String) (i : Nat) :
    ∀ (rem j : Nat) (st : WState),
      resultsOf (runsLoop ctx bhv noStop total u i rem j st).1 =
        (List.range' j rem).map fun j' => taggedMeasure ctx bhv i j' u := by
  intro rem
  induction rem with
  | zero => intro j st; simp [runsLoop, resultsOf]
  | succ n ih =>
    intro j st
    simp [runsLoop, noStop, resultsOf, List.range'_succ, resultsOf_append] at *
    exact ih (j + 1) _

/-- Evaluation of `resultsOf` on each event head. -/
@[simp] theorem resultsOf_nil : resultsOf [] = [] := rfl

@[simp] theorem resultsOf_cons_progress (c t : Nat) (evs : List Event) :
    resultsOf (.progress c t :: evs) = resultsOf evs := rfl

@[simp] theorem resultsOf_cons_status (m : String) (evs : List Event) :
    resultsOf (.status m :: evs) = resultsOf evs := rfl

@[simp] theorem resultsOf_cons_result (r : RunResult) (evs : List Event) :
    resultsOf (.result r :: evs) = r :: resultsOf evs := rfl

@[simp] theorem resultsOf_cons_finished (evs : List Event) :
    resultsOf (.finished :: evs) = resultsOf evs := rfl

@[simp] theorem resultsOf_cons_errorOccurred (m : String) (evs : List Event) :
    resultsOf (.errorOccurred m :: evs) = resultsOf evs := rfl

@[simp] theorem resultsOf_cons_dnsResults (e : Option String) (evs : List Event) :
    resultsOf (.dnsResults e :: evs) = resultsOf evs := rfl

/-- Evaluation of `fatalsOf` on each event head. -/
@[simp] theorem fatalsOf_nil : fatalsOf [] = [] := rfl

@[simp] theorem fatalsOf_cons_progress (c t : Nat) (evs : List Event) :
    fatalsOf (.progress c t :: evs) = fatalsOf evs := rfl

@[simp] theorem fatalsOf_cons_status (m : String) (evs : List Event) :
    fatalsOf (.status m :: evs) = fatalsOf evs := rfl

@[simp] theorem fatalsOf_cons_result (r : RunResult) (evs : List Event) :
    fatalsOf (.result r :: evs) = fatalsOf evs := rfl

@[simp] theorem fatalsOf_cons_finished (evs : List Event) :
    fatalsOf (.finished :: evs) = fatalsOf evs := rfl

@[simp] theorem fatalsOf_cons_errorOccurred (m : String) (evs : List Event) :
    fatalsOf (.errorOccurred m :: evs) = m :: fatalsOf evs := rfl

@[simp] theorem fatalsOf_cons_dnsResults (e : Option String) (evs : List Event) :
    fatalsOf (.dnsResults e :: evs) = fatalsOf evs := rfl

/-- Evaluation of `countFinished` on each event head. -/
@[simp] theorem countFinished_nil : countFinished [] = 0 := rfl

@[simp] theorem countFinished_cons_progress (c t : Nat) (evs : List Event) :
    countFinished (.progress c t :: evs) = countFinished evs := rfl

@[simp] theorem countFinished_cons_status (m : String) (evs : List Event) :
    countFinished (.status m :: evs) = countFinished evs := rfl

@[simp] theorem countFinished_cons_result (r : RunResult) (evs : List Event) :
    countFinished (.result r :: evs) = countFinished evs := rfl

@[simp] theorem countFinished_cons_finished (evs : List Event) :
    countFinished (.finished :: evs) = countFinished evs + 1 := by
  simp [countFinished, List.countP_cons, isFinished]

@[simp] theorem countFinished_cons_errorOccurred (m : String) (evs : List Event) :
    countFinished (.errorOccurred m :: evs) = countFinished evs := rfl

@[simp] theorem countFinished_cons_dnsResults (e : Option String) (evs : List Event) :
    countFinished (.dnsResults e :: evs) = countFinished evs := rfl

/-- The URL loop, never cancelled, emits exactly the expected per-URL result
batches. -/
theorem resultsOf_urlLoop_noStop (ctx : WorkerCtx) (bhv : WorkerBehavior)
    (total : Nat) :
    ∀ (us : List String) (i : Nat) (st : WState),
      resultsOf (urlLoop ctx bhv noStop total us i st).1 =
        expectedResultsFrom ctx bhv us i := by
  intro us
  induction us with
  | nil => intro i st; simp [urlLoop, expectedResultsFrom]
  | cons u rest ih =>
    intro i st
    rcases hs : bhv.setup i with _ | e
    · rcases hq : bhv.quitErr i with _ | qe <;>
        simp [urlLoop, noStop, hs, hq, resultsOf_append, expectedResultsFrom,
          expectedBlock, resultsOf_runsLoop_noStop, List.range_eq_range', ih]
    · simp [urlLoop, noStop, hs, resultsOf_append, expectedResultsFrom,
        expectedBlock, resultsOf_errorLoop, List.range_eq_range', ih]

/-- The never-cancelled full run emits exactly the expected results. -/
theorem resultsOf_run_noStop (ctx : WorkerCtx) (bhv : WorkerBehavior) :
    resultsOf (TestWorker_run ctx bhv noStop) = expectedResults ctx bhv := by
  have hdns : resultsOf (dnsPhase bhv ctx.run_dns_benchmark) = [] := by
    rcases h : bhv.dns with e | _ <;>
      cases ctx.run_dns_benchmark <;> simp [dnsPhase, h]
  simp [TestWorker_run, noStop, resultsOf_append, hdns,
    resultsOf_urlLoop_noStop, expectedResults]

/-- The setup-failure loop emits no `error_occurred` signal itself. -/
theorem fatalsOf_errorLoop (ctx : WorkerCtx) (bhv : WorkerBehavior) (total : Nat)
    (u e : String) (i : Nat) :
    ∀ (rem j : Nat) (st : WState),
      fatalsOf (errorLoop ctx bhv total u e i rem j st).1 = [] := by
  intro rem
  induction rem with
  | zero => intro j st; simp [errorLoop]
  | succ n ih => intro j st; simp [errorLoop, ih]

/-- The measurement loop emits no `error_occurred` signal, under any cancellation
schedule. -/
theorem fatalsOf_runsLoop (ctx : WorkerCtx) (bhv : WorkerBehavior)
    (flag : Nat → Nat → Bool) (total : Nat) (u : String) (i : Nat) :
    ∀ (rem j : Nat) (st : WState),
      fatalsOf (runsLoop ctx bhv flag total u i rem j st).1 = [] := by
  intro rem
  induction rem with
  | zero => intro j st; simp [runsLoop]
  | succ n ih =>
    intro j st
    by_cases h1 : flag st.emitted st.measured
    · by_cases h2 : flag st.emitted (st.measured + 1)
      · simp [runsLoop, h1, h2, fatalsOf_append, ih]
      · simp [runsLoop, h1, h2, fatalsOf_append]
    · simp [runsLoop, h1]

/-- The URL loop, never cancelled, emits exactly one `error_occurred` per URL whose
setup fails, in order. -/
theorem fatalsOf_urlLoop_noStop (ctx : WorkerCtx) (bhv : WorkerBehavior)
    (total : Nat) :
    ∀ (us : List String) (i : Nat) (st : WState),
      fatalsOf (urlLoop ctx bhv noStop total us i st).1 =
        expectedFatalsFrom bhv us i := by
  intro us
  induction us with
  | nil => intro i st; simp [urlLoop, expectedFatalsFrom]
  | cons u rest ih =>
    intro i st
    rcases hs : bhv.setup i with _ | e
    · rcases hq : bhv.quitErr i with _ | qe <;>
        simp [urlLoop, noStop, hs, hq, fatalsOf_append, expectedFatalsFrom,
          fatalsOf_runsLoop, ih]
    · simp [urlLoop, noStop, hs, fatalsOf_append, expectedFatalsFrom,
        fatalsOf_errorLoop, ih]

/-- The never-cancelled run emits exactly the expected `error_occurred` messages. -/
theorem fatalsOf_run_noStop (ctx : WorkerCtx) (bhv : WorkerBehavior) :
    fatalsOf (TestWorker_run ctx bhv noStop) = expectedFatalsFrom bhv ctx.urls 0 := by
  have hdns : fatalsOf (dnsPhase bhv ctx.run_dns_benchmark) = [] := by
    rcases h : bhv.dns with e | _ <;>
      cases ctx.run_dns_benchmark <;> simp [dnsPhase, h]
  simp [TestWorker_run, noStop, fatalsOf_append, hdns, fatalsOf_urlLoop_noStop]

/-- The setup-failure loop emits no `finished` signal. -/
theorem countFinished_errorLoop (ctx : WorkerCtx) (bhv : WorkerBehavior)
    (total : Nat) (u e : String) (i : Nat) :
    ∀ (rem j : Nat) (st : WState),
      countFinished (errorLoop ctx bhv total u e i rem j st).1 = 0 := by
  intro rem
  induction rem with
  | zero => intro j st; simp [errorLoop]
  | succ n ih => intro j st; simp [errorLoop, ih]

/-- The measurement loop emits no `finished` signal, under any schedule. -/
theorem countFinished_runsLoop (ctx : WorkerCtx) (bhv : WorkerBehavior)
    (flag : Nat → Nat → Bool) (total : Nat) (u : String) (i : Nat) :
    ∀ (rem j : Nat) (st : WState),
      countFinished (runsLoop ctx bhv flag total u i rem j st).1 = 0 := by
  intro rem
  induction rem with
  | zero => intro j st; simp [runsLoop]
  | succ n ih =>
    intro j st
    by_cases h1 : flag st.emitted st.measured
    · by_cases h2 : flag st.emitted (st.measured + 1)
      · simp [runsLoop, h1, h2, countFinished_append, ih]
      · simp [runsLoop, h1, h2, countFinished_append]
    · simp [runsLoop, h1]

/-- The URL loop emits no `finished` signal, under any schedule. -/
theorem countFinished_urlLoop (ctx : WorkerCtx) (bhv : WorkerBehavior)
    (flag : Nat → Nat → Bool) (total : Nat) :
    ∀ (us : List String) (i : Nat) (st : WState),
      countFinished (urlLoop ctx bhv flag total us i st).1 = 0 := by
  intro us
  induction us with
  | nil => intro i st; simp [urlLoop]
  | cons u rest ih =>
    intro i st
    by_cases h1 : flag st.emitted st.measured
    · rcases hs : bhv.setup i with _ | e
      · rcases hq : bhv.quitErr i with _ | qe <;>
        by_cases h2 : flag (runsLoop ctx bhv flag total u i ctx.runs_per_url 0 st).2.emitted
            (runsLoop ctx bhv flag total u i ctx.runs_per_url 0 st).2.measured <;>
          simp [urlLoop, h1, h2, hs, hq, countFinished_append,
            countFinished_runsLoop, ih]
      · simp [urlLoop, h1, hs, countFinished_append, countFinished_errorLoop, ih]
    · simp [urlLoop, h1]

/-- The DNS phase emits no `finished` signal. -/
theorem countFinished_dnsPhase (bhv : WorkerBehavior) (runDns : Bool) :
    countFinished (dnsPhase bhv runDns) = 0 := by
  rcases h : bhv.dns with e | _ <;> cases runDns <;> simp [dnsPhase, h]

/-- Every execution path of the worker emits `finished` exactly once. -/
theorem countFinished_run (ctx : WorkerCtx) (bhv : WorkerBehavior)
    (flag : Nat → Nat → Bool) :
    countFinished (TestWorker_run ctx bhv flag) = 1 := by
  by_cases h0 : flag 0 0
  · by_cases h1 : flag
        (urlLoop ctx bhv flag (ctx.urls.length * ctx.runs_per_url) ctx.urls 0
          ⟨0, 0, 0⟩).2.emitted
        (urlLoop ctx bhv flag (ctx.urls.length * ctx.runs_per_url) ctx.urls 0
          ⟨0, 0, 0⟩).2.measured <;>
      simp [TestWorker_run, h0, h1, countFinished_append, countFinished_dnsPhase,
        countFinished_urlLoop]
  · simp [TestWorker_run, h0, countFinished_append, countFinished_dnsPhase]

/-- A trace of the shape `a ++ b ++ [finished]` ends with `finished`. -/
theorem getLast_concat_finished (a b : List Event) :
    (a ++ b ++ [Event.finished]).getLast? = some Event.finished :=
  List.getLast?_concat _

/-- Every execution path of the worker ends with the `finished` signal. -/
theorem getLast_run (ctx : WorkerCtx) (bhv : WorkerBehavior)
    (flag : Nat → Nat → Bool) :
    (TestWorker_run ctx bhv flag).getLast? = some Event.finished := by
  simp only [TestWorker_run]
  exact getLast_concat_finished _ _

/-- The expected result sequence has exactly `|urls| × runs_per_url` entries. -/
theorem length_expectedResultsFrom (ctx : WorkerCtx) (bhv : WorkerBehavior) :
    ∀ (us : List String) (i : Nat),
      (expectedResultsFrom ctx bhv us i).length = us.length * ctx.runs_per_url := by
  intro us
  induction us with
  | nil => intro i; simp [expectedResultsFrom]
  | cons u rest ih =>
    intro i
    rcases hs : bhv.setup i with _ | e <;>
      · simp [expectedResultsFrom, expectedBlock, hs, ih]
        ring

/-- The expected result sequence is the URL-major flattening of the per-URL
blocks. -/
theorem expectedResultsFrom_eq_bind (ctx : WorkerCtx) (bhv : WorkerBehavior) :
    ∀ (us : List String) (i : Nat),
      expectedResultsFrom ctx bhv us i =
        (us.enumFrom i).flatMap fun p => expectedBlock ctx bhv p.1 p.2 := by
  intro us
  induction us with
  | nil => intro i; simp [expectedResultsFrom]
  | cons u rest ih => intro i; simp [expectedResultsFrom, List.enumFrom_cons, ih]

/-- Claim C1: with no cancellation and every session setup succeeding, the run
emits exactly `runs_per_url × |urls|` results, URL-major in list order and
run-minor with `run_number` 1..N (`taggedMeasure` tags run index `j` as `j + 1`);
`finished` is the last event and, on every execution path (any schedule, any
environment), is emitted exactly once. -/
theorem claim_C1_full_matrix (ctx : WorkerCtx) (bhv : WorkerBehavior)
    (hsetup : ∀ i, bhv.setup i = none) :
    resultsOf (TestWorker_run ctx bhv noStop) =
      (ctx.urls.enumFrom 0).flatMap (fun p =>
        (List.range ctx.runs_per_url).map fun j => taggedMeasure ctx bhv p.1 j p.2) ∧
    (resultsOf (TestWorker_run ctx bhv noStop)).length =
      ctx.urls.length * ctx.runs_per_url ∧
    (TestWorker_run ctx bhv noStop).getLast? = some Event.finished ∧
    countFinished (TestWorker_run ctx bhv noStop) = 1 ∧
    ∀ (flag : Nat → Nat → Bool) (bhv' : WorkerBehavior),
      countFinished (TestWorker_run ctx bhv' flag) = 1 ∧
      (TestWorker_run ctx bhv' flag).getLast? = some Event.finished := by
  refine ⟨?_, ?_, getLast_run ctx bhv noStop, countFinished_run ctx bhv noStop,
    fun flag bhv' => ⟨countFinished_run ctx bhv' flag, getLast_run ctx bhv' flag⟩⟩
  · rw [resultsOf_run_noStop, expectedResults, expectedResultsFrom_eq_bind]
    have hblock : (fun p : Nat × String => expectedBlock ctx bhv p.1 p.2) =
        fun p => (List.range ctx.runs_per_url).map fun j =>
          taggedMeasure ctx bhv p.1 j p.2 := by
      funext p
      simp [expectedBlock, hsetup p.1]
    rw [hblock]
  · rw [resultsOf_run_noStop, expectedResults, length_expectedResultsFrom]

/-- Witness for C1: two URLs, two runs each, all sessions succeed. -/
theorem claim_C1_full_matrix_witness :
    resultsOf (TestWorker_run ctx2 wBhv0 noStop) =
      (ctx2.urls.enumFrom 0).flatMap (fun p =>
        (List.range ctx2.runs_per_url).map fun j =>
          taggedMeasure ctx2 wBhv0 p.1 j p.2) ∧
    (resultsOf (TestWorker_run ctx2 wBhv0 noStop)).length = 4 ∧
    countFinished (TestWorker_run ctx2 wBhv0 noStop) = 1 := by
  have h := claim_C1_full_matrix ctx2 wBhv0 (fun i => rfl)
  exact ⟨h.1, h.2.1, h.2.2.2.1⟩

/-- Claim C2: for every URL whose setup fails, the never-cancelled run emits
exactly `runs_per_url` Error results for it, all with the identical message
`Driver setup failed: <e>`, emits exactly one `error_occurred` fatal notification
per failing URL (`expectedFatalsFrom`), and still processes every URL of the list
(the result trace equals the full URL-major concatenation `expectedResults`). -/
theorem claim_C2_setup_failure_isolation (ctx : WorkerCtx) (bhv : WorkerBehavior) :
    resultsOf (TestWorker_run ctx bhv noStop) = expectedResults ctx bhv ∧
    fatalsOf (TestWorker_run ctx bhv noStop) = expectedFatalsFrom bhv ctx.urls 0 ∧
    ∀ (i : Nat) (u e : String), ctx.urls.get? i = some u → bhv.setup i = some e →
      expectedBlock ctx bhv i u =
        ((List.range ctx.runs_per_url).map fun j =>
          setupErrorResult ctx u e (bhv.errTs i j) j) ∧
      (expectedBlock ctx bhv i u).length = ctx.runs_per_url ∧
      ∀ r ∈ expectedBlock ctx bhv i u,
        r.url = u ∧ r.status = "Error" ∧
        r.error_message = some ("Driver setup failed: " ++ e) := by
  refine ⟨resultsOf_run_noStop ctx bhv, fatalsOf_run_noStop ctx bhv, ?_⟩
  intro i u e _ hs
  refine ⟨by simp [expectedBlock, hs], by simp [expectedBlock, hs], ?_⟩
  intro r hr
  simp only [expectedBlock, hs, List.mem_map, List.mem_range] at hr
  obtain ⟨j, _, rfl⟩ := hr
  simp [setupErrorResult]

/-- Witness for C2: URL `a` fails setup with `boom`, URL `b` succeeds; the run
still emits two identical error results for `a`, one fatal, and proceeds to `b`. -/
theorem claim_C2_setup_failure_isolation_witness :
    resultsOf (TestWorker_run ctx2 wBhvFail noStop) = expectedResults ctx2 wBhvFail ∧
    fatalsOf (TestWorker_run ctx2 wBhvFail noStop) =
      ["Fatal Error initializing driver for a: boom"] ∧
    (expectedBlock ctx2 wBhvFail 0 "a").length = 2 ∧
    (∀ r ∈ expectedBlock ctx2 wBhvFail 0 "a",
      r.url = "a" ∧ r.status = "Error" ∧
      r.error_message = some ("Driver setup failed: " ++ "boom")) := by
  have h := claim_C2_setup_failure_isolation ctx2 wBhvFail
  have h3 := h.2.2 0 "a" "boom" rfl rfl
  refine ⟨h.1, ?_, h3.2.1, h3.2.2⟩
  · rw [h.2.1]
    decide

/-- The setup-failure loop advances the emitted-results counter by one per planned
run, with no flag check in between. -/
theorem emitted_errorLoop (ctx : WorkerCtx) (bhv : WorkerBehavior) (total : Nat)
    (u e : String) (i : Nat) :
    ∀ (rem j : Nat) (st : WState),
      (errorLoop ctx bhv total u e i rem j st).2.emitted = st.emitted + rem := by
  intro rem
  induction rem with
  | zero => intro j st; simp [errorLoop]
  | succ n ih =>
    intro j st
    simp only [errorLoop]
    rw [ih]
    simp
    omega

/-- The measurement loop advances the emitted-results counter by exactly the number
of results it emits. -/
theorem emitted_runsLoop (ctx : WorkerCtx) (bhv : WorkerBehavior)
    (flag : Nat → Nat → Bool) (total : Nat) (u : String) (i : Nat) :
    ∀ (rem j : Nat) (st : WState),
      (runsLoop ctx bhv flag total u i rem j st).2.emitted =
        st.emitted + (resultsOf (runsLoop ctx bhv flag total u i rem j st).1).length := by
  intro rem
  induction rem with
  | zero => intro j st; simp [runsLoop]
  | succ n ih =>
    intro j st
    by_cases h1 : flag st.emitted st.measured
    · by_cases h2 : flag st.emitted (st.measured + 1)
      · simp only [runsLoop, h1, h2, if_true, if_pos]
        rw [ih]
        simp [resultsOf_append]
        omega
      · simp [runsLoop, h1, h2]
    · simp [runsLoop, h1]

/-- The URL loop advances the emitted-results counter by exactly the number of
results it emits, under any schedule. -/
theorem emitted_urlLoop (ctx : WorkerCtx) (bhv : WorkerBehavior)
    (flag : Nat → Nat → Bool) (total : Nat) :
    ∀ (us : List String) (i : Nat) (st : WState),
      (urlLoop ctx bhv flag total us i st).2.emitted =
        st.emitted + (resultsOf (urlLoop ctx bhv flag total us i st).1).length := by
  intro us
  induction us with
  | nil => intro i st; simp [urlLoop]
  | cons u rest ih =>
    intro i st
    by_cases h1 : flag st.emitted st.measured
    · rcases hs : bhv.setup i with _ | e
      · rcases hq : bhv.quitErr i with _ | qe <;>
        by_cases h2 : flag (runsLoop ctx bhv flag total u i ctx.runs_per_url 0 st).2.emitted
            (runsLoop ctx bhv flag total u i ctx.runs_per_url 0 st).2.measured <;>
        · simp only [urlLoop, h1, hs, hq, if_true, if_pos, h2, if_neg, if_false]
          simp [resultsOf_append, h2, ih, emitted_runsLoop] <;> omega
      · simp only [urlLoop, h1, hs, if_pos]
        simp [resultsOf_append, ih, emitted_errorLoop, resultsOf_errorLoop]
        omega
    · simp [urlLoop, h1]

/-- If the flag reads false whenever at least `k` results have been emitted, the
measurement loop never pushes the emitted counter beyond `k`. -/
theorem emitted_le_runsLoop (ctx : WorkerCtx) (bhv : WorkerBehavior)
    (flag : Nat → Nat → Bool) (total : Nat) (u : String) (i : Nat) (k : Nat)
    (hflag : ∀ e m, k ≤ e → flag e m = false) :
    ∀ (rem j : Nat) (st : WState), st.emitted ≤ k →
      (runsLoop ctx bhv flag total u i rem j st).2.emitted ≤ k := by
  intro rem
  induction rem with
  | zero => intro j st h; simpa [runsLoop] using h
  | succ n ih =>
    intro j st hst
    by_cases h1 : flag st.emitted st.measured
    · by_cases h2 : flag st.emitted (st.measured + 1)
      · have hlt : st.emitted < k := by
          by_contra hge
          rw [hflag st.emitted (st.measured + 1) (by omega)] at h2
          simp at h2
        simp only [runsLoop, h1, h2, if_true, if_pos]
        exact ih (j + 1) _ (by simp; omega)
      · simpa [runsLoop, h1, h2] using hst
    · simpa [runsLoop, h1] using hst

/-- If the flag reads false whenever at least `k` results have been emitted and
every session setup succeeds, the URL loop never pushes the emitted counter beyond
`k`. -/
theorem emitted_le_urlLoop (ctx : WorkerCtx) (bhv : WorkerBehavior)
    (flag : Nat → Nat → Bool) (total : Nat) (k : Nat)
    (hsetup : ∀ i, bhv.setup i = none)
    (hflag : ∀ e m, k ≤ e → flag e m = false) :
    ∀ (us : List String) (i : Nat) (st : WState), st.emitted ≤ k →
      (urlLoop ctx bhv flag total us i st).2.emitted ≤ k := by
  intro us
  induction us with
  | nil => intro i st h; simpa [urlLoop] using h
  | cons u rest ih =>
    intro i st hst
    by_cases h1 : flag st.emitted st.measured
    · have hrl := emitted_le_runsLoop ctx bhv flag total u i k hflag
        ctx.runs_per_url 0 st hst
      rcases hq : bhv.quitErr i with _ | qe <;>
      by_cases h2 : flag (runsLoop ctx bhv flag total u i ctx.runs_per_url 0 st).2.emitted
          (runsLoop ctx bhv flag total u i ctx.runs_per_url 0 st).2.measured <;>
      · simp only [urlLoop, h1, hsetup i, hq, h2, if_true, if_pos, if_neg, if_false]
        first
        | exact ih (i + 1) _ hrl
        | exact hrl
    · simpa [urlLoop, h1] using hst

/-- The DNS phase emits no results. -/
theorem resultsOf_dnsPhase (bhv : WorkerBehavior) (runDns : Bool) :
    resultsOf (dnsPhase bhv runDns) = [] := by
  rcases h : bhv.dns with e | _ <;> cases runDns <;> simp [dnsPhase, h]

/-- An optional trailing status emits no results. -/
theorem resultsOf_statusIf (c : Prop) [Decidable c] (m : String) :
    resultsOf (if c then [Event.status m] else []) = [] := by
  split <;> rfl

/-- If the first flag read passes, the run's results are the URL loop's results. -/
theorem resultsOf_run_eq (ctx : WorkerCtx) (bhv : WorkerBehavior)
    (flag : Nat → Nat → Bool) (h0 : flag 0 0 = true) :
    resultsOf (TestWorker_run ctx bhv flag) =
      resultsOf (urlLoop ctx bhv flag (ctx.urls.length * ctx.runs_per_url)
        ctx.urls 0 ⟨0, 0, 0⟩).1 := by
  simp [TestWorker_run, h0, resultsOf_append, resultsOf_dnsPhase, resultsOf_statusIf]

/-- If the first flag read fails, the run emits no results at all. -/
theorem resultsOf_run_stopped (ctx : WorkerCtx) (bhv : WorkerBehavior)
    (flag : Nat → Nat → Bool) (h0 : flag 0 0 = false) :
    resultsOf (TestWorker_run ctx bhv flag) = [] := by
  simp [TestWorker_run, h0, resultsOf_append, resultsOf_dnsPhase]

/-- Under any schedule the measurement loop's results are a prefix of its
uncancelled results; if the prefix is proper, the loop stopped on a false flag
read, which the final state still witnesses. -/
theorem runsLoop_take (ctx : WorkerCtx) (bhv : WorkerBehavior)
    (flag : Nat → Nat → Bool) (total : Nat) (u : String) (i : Nat) :
    ∀ (rem j : Nat) (st : WState), ∃ t, t ≤ rem ∧
      resultsOf (runsLoop ctx bhv flag total u i rem j st).1 =
        ((List.range' j rem).map fun j' => taggedMeasure ctx bhv i j' u).take t ∧
      (t = rem ∨ flag (runsLoop ctx bhv flag total u i rem j st).2.emitted
          (runsLoop ctx bhv flag total u i rem j st).2.measured = false) := by
  intro rem
  induction rem with
  | zero => intro j st; exact ⟨0, Nat.le_refl 0, by simp [runsLoop], Or.inl rfl⟩
  | succ n ih =>
    intro j st
    by_cases h1 : flag st.emitted st.measured
    · by_cases h2 : flag st.emitted (st.measured + 1)
      · obtain ⟨t, ht, heq, hd⟩ :=
          ih (j + 1) ⟨st.step + 1, st.emitted + 1, st.measured + 1⟩
        refine ⟨t + 1, by omega, ?_, ?_⟩
        · simp only [runsLoop, h1, h2, if_true, if_pos, resultsOf_append,
            resultsOf_cons_progress, resultsOf_cons_status, resultsOf_cons_result,
            resultsOf_nil, List.nil_append, List.range'_succ, List.map_cons,
            List.take_succ_cons]
          rw [heq]
        · rcases hd with h | h
          · exact Or.inl (by omega)
          · refine Or.inr ?_
            simp only [runsLoop, h1, h2, if_true, if_pos]
            exact h
      · rw [Bool.not_eq_true] at h2
        exact ⟨0, by omega, by simp [runsLoop, h1, h2],
          Or.inr (by simp [runsLoop, h1, h2])⟩
    · rw [Bool.not_eq_true] at h1
      exact ⟨0, by omega, by simp [runsLoop, h1],
        Or.inr (by simp [runsLoop, h1])⟩

/-- Under any schedule, if every session setup succeeds, the URL loop's results are
a prefix (a `take`) of the expected uncancelled result sequence. -/
theorem urlLoop_take (ctx : WorkerCtx) (bhv : WorkerBehavior)
    (flag : Nat → Nat → Bool) (total : Nat) (hsetup : ∀ i, bhv.setup i = none) :
    ∀ (us : List String) (i : Nat) (st : WState), ∃ L,
      resultsOf (urlLoop ctx bhv flag total us i st).1 =
        (expectedResultsFrom ctx bhv us i).take L := by
  intro us
  induction us with
  | nil => exact fun i st => ⟨0, by simp [urlLoop, expectedResultsFrom]⟩
  | cons u rest ih =>
    intro i st
    have hblock : expectedResultsFrom ctx bhv (u :: rest) i =
        ((List.range' 0 ctx.runs_per_url).map fun j' => taggedMeasure ctx bhv i j' u)
          ++ expectedResultsFrom ctx bhv rest (i + 1) := by
      simp [expectedResultsFrom, expectedBlock, hsetup i, List.range_eq_range']
    have hblen : ((List.range' 0 ctx.runs_per_url).map fun j' =>
        taggedMeasure ctx bhv i j' u).length = ctx.runs_per_url := by
      simp
    by_cases h1 : flag st.emitted st.measured
    · obtain ⟨t, ht, heq, hd⟩ :=
        runsLoop_take ctx bhv flag total u i ctx.runs_per_url 0 st
      by_cases h2 : flag (runsLoop ctx bhv flag total u i ctx.runs_per_url 0 st).2.emitted
          (runsLoop ctx bhv flag total u i ctx.runs_per_url 0 st).2.measured
      · have htN : t = ctx.runs_per_url := by
          rcases hd with h | h
          · exact h
          · rw [h] at h2; simp at h2
        obtain ⟨L, hL⟩ := ih (i + 1)
          (runsLoop ctx bhv flag total u i ctx.runs_per_url 0 st).2
        refine ⟨ctx.runs_per_url + L, ?_⟩
        rcases hq : bhv.quitErr i with _ | qe <;>
        · simp only [urlLoop, h1, hsetup i, hq, h2, if_true, if_pos,
            resultsOf_append, resultsOf_cons_status, resultsOf_nil,
            List.nil_append, List.append_nil]
          rw [heq, htN, hblock, hL]
          rw [show ctx.runs_per_url + L =
              ((List.range' 0 ctx.runs_per_url).map fun j' =>
                taggedMeasure ctx bhv i j' u).length + L by rw [hblen]]
          rw [List.take_append]
          congr 1
          exact List.take_of_length_le (by rw [hblen])
      · rw [Bool.not_eq_true] at h2
        refine ⟨t, ?_⟩
        rcases hq : bhv.quitErr i with _ | qe <;>
        · simp only [urlLoop, h1, hsetup i, hq, h2, if_true, if_pos,
            Bool.false_eq_true, if_neg, if_false, resultsOf_append,
            resultsOf_cons_status, resultsOf_nil, List.nil_append, List.append_nil]
          rw [heq, hblock, List.take_append_of_le_length (by rw [hblen]; omega)]
    · rw [Bool.not_eq_true] at h1
      exact ⟨0, by simp [urlLoop, h1]⟩

/-- Under any schedule, if every session setup succeeds, the run's results are a
`take`-prefix of the uncancelled run's results. -/
theorem run_take (ctx : WorkerCtx) (bhv : WorkerBehavior)
    (flag : Nat → Nat → Bool) (hsetup : ∀ i, bhv.setup i = none) :
    ∃ L, resultsOf (TestWorker_run ctx bhv flag) =
      (resultsOf (TestWorker_run ctx bhv noStop)).take L := by
  rw [resultsOf_run_noStop, expectedResults]
  by_cases h0 : flag 0 0
  · obtain ⟨L, hL⟩ := urlLoop_take ctx bhv flag
      (ctx.urls.length * ctx.runs_per_url) hsetup ctx.urls 0 ⟨0, 0, 0⟩
    exact ⟨L, by rw [resultsOf_run_eq ctx bhv flag h0, hL]⟩
  · rw [Bool.not_eq_true] at h0
    exact ⟨0, by rw [resultsOf_run_stopped ctx bhv flag h0]; simp⟩

/-- Counterexample to claim C3 as stated.  `stopAfter 1` is the schedule of a stop
request arriving at the moment the first result is emitted: every flag read taken
with at least one result already emitted returns `False` (second conjunct), and the
read taken before any result returns `True` (first conjunct).  Yet on a run whose
only URL fails session setup, the setup-failure loop of `worker.py` lines 93-106
emits its whole batch without re-checking the flag: two results are emitted, so a
result beyond the first is emitted after cancellation, contradicting the claim that
no result beyond the k-th is ever emitted. -/
theorem claim_C3_counterexample :
    stopAfter 1 0 0 = true ∧ stopAfter 1 1 0 = false ∧
    ¬ (resultsOf (TestWorker_run ctx1 wBhvFail (stopAfter 1))).length ≤ 1 ∧
    (resultsOf (TestWorker_run ctx1 wBhvFail (stopAfter 1))).length = 2 := by
  refine ⟨rfl, rfl, ?_, ?_⟩ <;> decide

/-- Claim C3 (amended): if every session setup succeeds and cancellation is
requested after `k` results have been emitted (the flag reads false at every point
where at least `k` results exist), then no result beyond the `k`-th is emitted, the
emitted results are a prefix of the uncancelled run's result sequence (an in-flight
measurement still completes, but a result measured after the stop request is
discarded rather than emitted), and `finished` is still emitted exactly once, as
the last event. -/
theorem claim_C3_cancellation_bound (ctx : WorkerCtx) (bhv : WorkerBehavior)
    (flag : Nat → Nat → Bool) (k : Nat)
    (hsetup : ∀ i, bhv.setup i = none)
    (hflag : ∀ e m, k ≤ e → flag e m = false) :
    (resultsOf (TestWorker_run ctx bhv flag)).length ≤ k ∧
    resultsOf (TestWorker_run ctx bhv flag) =
      (resultsOf (TestWorker_run ctx bhv noStop)).take
        (resultsOf (TestWorker_run ctx bhv flag)).length ∧
    countFinished (TestWorker_run ctx bhv flag) = 1 ∧
    (TestWorker_run ctx bhv flag).getLast? = some Event.finished := by
  have hlen : (resultsOf (TestWorker_run ctx bhv flag)).length ≤ k := by
    by_cases h0 : flag 0 0
    · have he := emitted_urlLoop ctx bhv flag (ctx.urls.length * ctx.runs_per_url)
        ctx.urls 0 ⟨0, 0, 0⟩
      have hle := emitted_le_urlLoop ctx bhv flag
        (ctx.urls.length * ctx.runs_per_url) k hsetup hflag ctx.urls 0 ⟨0, 0, 0⟩
        (by simp)
      rw [resultsOf_run_eq ctx bhv flag h0]
      simp only at he
      omega
    · rw [Bool.not_eq_true] at h0
      rw [resultsOf_run_stopped ctx bhv flag h0]
      simp
  refine ⟨hlen, ?_, countFinished_run ctx bhv flag, getLast_run ctx bhv flag⟩
  obtain ⟨L, hL⟩ := run_take ctx bhv flag hsetup
  rw [hL, List.length_take]
  exact List.take_eq_take.mpr (by omega)

/-- Witness for the amended C3: two all-success URLs with two runs each, stop
requested at the first emitted result — exactly one result survives and
`finished` still fires once. -/
theorem claim_C3_cancellation_bound_witness :
    (resultsOf (TestWorker_run ctx2 wBhv0 (stopAfter 1))).length ≤ 1 ∧
    countFinished (TestWorker_run ctx2 wBhv0 (stopAfter 1)) = 1 ∧
    (TestWorker_run ctx2 wBhv0 (stopAfter 1)).getLast? = some Event.finished := by
  have h := claim_C3_cancellation_bound ctx2 wBhv0 (stopAfter 1) 1
    (fun i => rfl)
    (fun e m he => by simp only [stopAfter, decide_eq_false_iff_not]; omega)
  exact ⟨h.1, h.2.2.1, h.2.2.2⟩

/-! ### Aggregator lemmas -/

/-- Looking up a key in the graph of a function returns the function's value. -/
theorem lookup_map_graph {β : Type} (f : String → β) :
    ∀ (us : List String) (u : String) (s : β),
      (us.map fun x => (x, f x)).lookup u = some s → s = f u := by
  intro us
  induction us with
  | nil => intro u s h; simp [List.lookup] at h
  | cons x rest ih =>
    intro u s h
    simp only [List.map_cons, List.lookup] at h
    cases hbe : u == x with
    | true =>
      rw [hbe] at h
      simp only [Option.some.injEq] at h
      rw [← h, eq_of_beq hbe]
    | false =>
      rw [hbe] at h
      exact ih u s h

/-- Every member key is found in the graph of a function. -/
theorem lookup_map_graph_mem {β : Type} (f : String → β) :
    ∀ (us : List String) (u : String), u ∈ us →
      (us.map fun x => (x, f x)).lookup u = some (f u) := by
  intro us
  induction us with
  | nil => intro u h; simp at h
  | cons x rest ih =>
    intro u hu
    simp only [List.map_cons, List.lookup]
    cases hbe : u == x with
    | true => rw [eq_of_beq hbe]
    | false =>
      apply ih
      rcases List.mem_cons.mp hu with h | h
      · rw [h] at hbe; simp at hbe
      · exact h

/-- A successful lookup in the graph of a function implies key membership. -/
theorem lookup_map_graph_mem_of {β : Type} (f : String → β) :
    ∀ (us : List String) (u : String) (s : β),
      (us.map fun x => (x, f x)).lookup u = some s → u ∈ us := by
  intro us
  induction us with
  | nil => intro u s h; simp [List.lookup] at h
  | cons x rest ih =>
    intro u s h
    simp only [List.map_cons, List.lookup] at h
    cases hbe : u == x with
    | true => exact List.mem_cons.mpr (Or.inl (eq_of_beq hbe))
    | false =>
      rw [hbe] at h
      exact List.mem_cons.mpr (Or.inr (ih u s h))

/-- A successful summary lookup identifies the per-URL summary. -/
theorem summary_lookup_eq (results_data : List RunResult) (u : String)
    (s : UrlSummary)
    (h : (generate_summary_report results_data).lookup u = some s) :
    s = summaryForUrl results_data u ∧ ∃ r ∈ results_data, r.url = u := by
  have hrd : results_data ≠ [] := by
    intro hnil
    rw [hnil] at h
    simp [generate_summary_report, List.lookup] at h
  rw [generate_summary_report, if_neg hrd] at h
  refine ⟨lookup_map_graph _ _ _ _ h, ?_⟩
  have hmem := lookup_map_graph_mem_of _ _ _ _ h
  simp only [sortedUrls, List.mem_insertionSort, List.mem_dedup, List.mem_map] at hmem
  obtain ⟨r, hr, hurl⟩ := hmem
  exact ⟨r, hr, hurl⟩

/-- Rounding an integer to two decimals returns it unchanged. -/
theorem pyRound2_intCast (n : ℤ) : pyRound2 (n : ℚ) = n := by
  simp only [pyRound2]
  have h100 : ((n : ℚ)) * 100 = ((100 * n : ℤ) : ℚ) := by push_cast; ring
  rw [h100, Int.fract_intCast, round_intCast]
  rw [if_neg (by norm_num)]
  push_cast
  ring

/-- The example's success load times. -/
theorem successLoadTimes_exResults : successLoadTimes exResults "u" = [100, 200, 300] := by
  decide

/-- The example's error subset is empty. -/
theorem urlErrors_exResults : urlErrors exResults "u" = [] := by decide

/-- The example's mean. -/
theorem pyMean_exResults : pyMean [(100 : ℚ), 200, 300] = 200 := by
  norm_num [pyMean]

/-- The example's min. -/
theorem pyMinList_exResults : pyMinList [(100 : ℚ), 200, 300] = 100 := by
  norm_num [pyMinList, min_def]

/-- The example's max. -/
theorem pyMaxList_exResults : pyMaxList [(100 : ℚ), 200, 300] = 300 := by
  norm_num [pyMaxList, max_def]

/-- The example's median. -/
theorem pyMedian_exResults : pyMedian [(100 : ℚ), 200, 300] = 200 := by
  have hsort : List.insertionSort (· ≤ ·) [(100 : ℚ), 200, 300] = [100, 200, 300] := by
    decide
  rw [pyMedian, hsort]
  norm_num

/-- The example's sample standard deviation: the square root of the sample
variance 10000. -/
theorem sampleStdev_exResults : sampleStdev [(100 : ℚ), 200, 300] = 100 := by
  rw [sampleStdev, pyMean_exResults]
  have hvar : (([(100 : ℚ), 200, 300].map fun x => (x - 200) ^ 2).sum /
      (([(100 : ℚ), 200, 300].length : ℚ) - 1)) = 100 * 100 := by
    norm_num
  rw [hvar, Rat.sqrt_eq]
  norm_num

/-- The summary entry computed for the example equals the promised entry. -/
theorem summaryForUrl_exResults : summaryForUrl exResults "u" = exSummary := by
  rw [summaryForUrl, successLoadTimes_exResults, urlErrors_exResults]
  rw [if_pos (by decide)]
  have h200 : pyRound2 200 = 200 := by
    have := pyRound2_intCast 200
    push_cast at this
    simpa using this
  have h100 : pyRound2 100 = 100 := by
    have := pyRound2_intCast 100
    push_cast at this
    simpa using this
  have h300 : pyRound2 300 = 300 := by
    have := pyRound2_intCast 300
    push_cast at this
    simpa using this
  rw [pyMean_exResults, pyMinList_exResults, pyMaxList_exResults,
    pyMedian_exResults, if_pos (by norm_num), sampleStdev_exResults,
    h200, h100, h300]
  rfl

/-- Claim C6: the summary iterates the distinct URLs in sorted order, and for every
URL with a non-empty Success subset computes the rounded mean, min, max and median
of the successful load times, with standard deviation 0.0 for a single success and
the rounded sample standard deviation for two or more; on the specification's
example (load times 100, 200, 300) the result is mean 200, median 200, standard
deviation 100, min 100, max 300 (the entry `exSummary`). -/
theorem claim_C6_summary_statistics :
    (∀ results_data : List RunResult,
      List.Sorted (· ≤ ·) ((generate_summary_report results_data).map Prod.fst) ∧
      ((generate_summary_report results_data).map Prod.fst).Nodup ∧
      (∀ u : String, u ∈ (generate_summary_report results_data).map Prod.fst ↔
        ∃ r ∈ results_data, r.url = u)) ∧
    (∀ (results_data : List RunResult) (u : String) (s : UrlSummary),
      (generate_summary_report results_data).lookup u = some s →
      successLoadTimes results_data u ≠ [] →
      s.num_successful_runs = (successLoadTimes results_data u).length ∧
      s.avg_load_time_ms = .val (pyRound2 (pyMean (successLoadTimes results_data u))) ∧
      s.min_load_time_ms = .val (pyRound2 (pyMinList (successLoadTimes results_data u))) ∧
      s.max_load_time_ms = .val (pyRound2 (pyMaxList (successLoadTimes results_data u))) ∧
      s.median_load_time_ms =
        .val (pyRound2 (pyMedian (successLoadTimes results_data u))) ∧
      (1 < (successLoadTimes results_data u).length →
        s.std_dev_load_time_ms =
          .val (pyRound2 (sampleStdev (successLoadTimes results_data u)))) ∧
      ((successLoadTimes results_data u).length = 1 →
        s.std_dev_load_time_ms = .val 0)) ∧
    generate_summary_report exResults = [("u", exSummary)] := by
  refine ⟨?_, ?_, ?_⟩
  · intro rd
    by_cases hrd : rd = []
    · subst hrd
      simp [generate_summary_report]
    · have hkeys : (generate_summary_report rd).map Prod.fst = sortedUrls rd := by
        rw [generate_summary_report, if_neg hrd, List.map_map]
        have hcomp : (Prod.fst ∘ fun u => (u, summaryForUrl rd u)) = id := by
          funext x; rfl
        rw [hcomp, List.map_id]
      rw [hkeys]
      refine ⟨List.sorted_insertionSort _ _,
        ((List.perm_insertionSort _ _).nodup_iff).mpr (List.nodup_dedup _), ?_⟩
      intro u
      simp [sortedUrls, List.mem_insertionSort, List.mem_dedup, List.mem_map]
  · intro rd u s hlk hne
    obtain ⟨hs, -⟩ := summary_lookup_eq rd u s hlk
    rw [hs]
    simp only [summaryForUrl]
    rw [if_pos hne]
    refine ⟨rfl, rfl, rfl, rfl, rfl, ?_, ?_⟩
    · intro hlt
      simp only
      rw [if_pos hlt]
    · intro heq
      simp only
      rw [if_neg (by omega)]
  · rw [generate_summary_report, if_neg (by decide)]
    have hurls : sortedUrls exResults = ["u"] := by decide
    rw [hurls, List.map_cons, List.map_nil, summaryForUrl_exResults]

/-- Witness for C6: the specification's example, applied through the theorem. -/
theorem claim_C6_summary_statistics_witness :
    exSummary.num_successful_runs = (successLoadTimes exResults "u").length ∧
    exSummary.avg_load_time_ms =
      .val (pyRound2 (pyMean (successLoadTimes exResults "u"))) ∧
    exSummary.median_load_time_ms =
      .val (pyRound2 (pyMedian (successLoadTimes exResults "u"))) ∧
    exSummary.std_dev_load_time_ms =
      .val (pyRound2 (sampleStdev (successLoadTimes exResults "u"))) := by
  have hlk : (generate_summary_report exResults).lookup "u" = some exSummary := by
    rw [claim_C6_summary_statistics.2.2]
    rfl
  have h := claim_C6_summary_statistics.2.1 exResults "u" exSummary hlk (by decide)
  exact ⟨h.1, h.2.1, h.2.2.2.2.1, h.2.2.2.2.2.1 (by decide)⟩

/-- Claim C7: for a URL with no successful run, the summary entry carries the
`N/A` marker in all five numeric fields and an error-message list that is the
ordered list of the Error subset's messages with missing messages replaced by
`Unknown Error`; under the program's result invariants (statuses are Success or
Error, and Success implies a non-negative load time) this list is non-empty. -/
theorem claim_C7_no_success_markers :
    ∀ (results_data : List RunResult) (u : String) (s : UrlSummary),
      (∀ r ∈ results_data, r.status = "Success" ∨ r.status = "Error") →
      (∀ r ∈ results_data, r.status = "Success" → 0 ≤ r.load_time_ms) →
      (generate_summary_report results_data).lookup u = some s →
      s.num_successful_runs = 0 →
      s.avg_load_time_ms = .na ∧ s.min_load_time_ms = .na ∧
      s.max_load_time_ms = .na ∧ s.median_load_time_ms = .na ∧
      s.std_dev_load_time_ms = .na ∧
      s.error_messages =
        (urlErrors results_data u).map (fun e => e.error_message.getD "Unknown Error") ∧
      s.error_messages ≠ [] := by
  intro rd u s hstat hpos hlk hzero
  obtain ⟨hs, r, hr, hurl⟩ := summary_lookup_eq rd u s hlk
  have hempty : successLoadTimes rd u = [] := by
    by_contra hne
    rw [hs] at hzero
    simp only [summaryForUrl] at hzero
    rw [if_pos hne] at hzero
    simp only at hzero
    exact hne (List.length_eq_zero.mp hzero)
  have herrs : urlErrors rd u ≠ [] := by
    rcases hstat r hr with hS | hE
    · exfalso
      have hmem : r.load_time_ms ∈ successLoadTimes rd u := by
        simp only [successLoadTimes, List.mem_map, List.mem_filter]
        exact ⟨r, ⟨⟨hr, by simp [hurl, hS]⟩, by simp [hpos r hr hS]⟩, rfl⟩
      rw [hempty] at hmem
      simp at hmem
    · intro hnil
      have hmem : r ∈ urlErrors rd u := by
        simp only [urlErrors, List.mem_filter]
        exact ⟨hr, by simp [hurl, hE]⟩
      rw [hnil] at hmem
      simp at hmem
  rw [hs]
  simp only [summaryForUrl, hempty]
  rw [if_neg (by simp)]
  refine ⟨rfl, rfl, rfl, rfl, rfl, by simp [hempty], ?_⟩
  simpa [List.map_eq_nil_iff] using herrs

/-- Witness for C7: a single timed-out error result for URL `u`. -/
theorem claim_C7_no_success_markers_witness :
    (generate_summary_report [exErr]).lookup "u" =
      some (summaryForUrl [exErr] "u") ∧
    (summaryForUrl [exErr] "u").avg_load_time_ms = .na ∧
    (summaryForUrl [exErr] "u").std_dev_load_time_ms = .na ∧
    (summaryForUrl [exErr] "u").error_messages =
      (urlErrors [exErr] "u").map (fun e => e.error_message.getD "Unknown Error") ∧
    (summaryForUrl [exErr] "u").error_messages ≠ [] := by
  have hlk : (generate_summary_report [exErr]).lookup "u" =
      some (summaryForUrl [exErr] "u") := by
    rw [generate_summary_report, if_neg (by decide)]
    have hurls : sortedUrls [exErr] = ["u"] := by decide
    rw [hurls]
    rfl
  have h := claim_C7_no_success_markers [exErr] "u" (summaryForUrl [exErr] "u")
    (by intro r hr; simp at hr; subst hr; right; rfl)
    (by intro r hr hS; simp at hr; subst hr; simp [exErr] at hS)
    hlk
    (by decide)
  exact ⟨hlk, h.1, h.2.2.2.2.1, h.2.2.2.2.2.1, h.2.2.2.2.2.2⟩

/-! ### Settings-store lemmas -/

/-- A key found on the left of an append is found in the append. -/
theorem lookup_append_some {β : Type} :
    ∀ (l t : List (String × β)) (k : String) (w : β),
      l.lookup k = some w → (l ++ t).lookup k = some w := by
  intro l
  induction l with
  | nil => intro t k w h; simp [List.lookup] at h
  | cons a rest ih =>
    intro t k w h
    rcases a with ⟨ka, va⟩
    simp only [List.lookup, List.cons_append] at *
    cases hbe : k == ka with
    | true => rw [hbe] at h; exact h
    | false => rw [hbe] at h; exact ih t k w h

/-- A key absent on the left of an append is looked up on the right. -/
theorem lookup_append_none {β : Type} :
    ∀ (l t : List (String × β)) (k : String),
      l.lookup k = none → (l ++ t).lookup k = t.lookup k := by
  intro l
  induction l with
  | nil => intro t k _; rfl
  | cons a rest ih =>
    intro t k h
    rcases a with ⟨ka, va⟩
    simp only [List.lookup, List.cons_append] at *
    cases hbe : k == ka with
    | true => rw [hbe] at h; simp at h
    | false => rw [hbe] at h; exact ih t k h

/-- The back-fill pass preserves every key already present. -/
theorem backfillAux_preserves :
    ∀ (ds : List (String × SVal)) (s : List (String × SVal)) (upd : Bool)
      (k : String) (w : SVal), s.lookup k = some w →
      (backfillAux ds (s, upd)).1.lookup k = some w := by
  intro ds
  induction ds with
  | nil => intro s upd k w h; exact h
  | cons d rest ih =>
    intro s upd k w h
    rcases d with ⟨kd, vd⟩
    by_cases hd : s.lookup kd = none
    · simp only [backfillAux, hd, if_pos]
      exact ih _ _ k w (lookup_append_some s [(kd, vd)] k w h)
    · simp only [backfillAux, hd, if_neg, if_false]
      exact ih _ _ k w h

/-- The back-fill pass inserts every default key that is absent. -/
theorem backfillAux_fills :
    ∀ (ds : List (String × SVal)), (ds.map Prod.fst).Nodup →
      ∀ (s : List (String × SVal)) (upd : Bool) (k : String) (v : SVal),
        (k, v) ∈ ds → s.lookup k = none →
        (backfillAux ds (s, upd)).1.lookup k = some v := by
  intro ds
  induction ds with
  | nil => intro _ s upd k v h; simp at h
  | cons d rest ih =>
    intro hnd s upd k v hmem hnone
    rcases d with ⟨kd, vd⟩
    rw [List.map_cons] at hnd
    have hnd' : (rest.map Prod.fst).Nodup := (List.nodup_cons.mp hnd).2
    rcases List.mem_cons.mp hmem with heq | htail
    · rcases Prod.mk.injEq .. ▸ heq with ⟨hk, hv⟩
      subst hk
      subst hv
      simp only [backfillAux, hnone, if_pos]
      apply backfillAux_preserves
      rw [lookup_append_none s [(k, v)] k hnone]
      simp [List.lookup]
    · have hkne : k ≠ kd := by
        intro hkk
        subst hkk
        exact (List.nodup_cons.mp hnd).1 (List.mem_map.mpr ⟨(k, v), htail, rfl⟩)
      by_cases hd : s.lookup kd = none
      · simp only [backfillAux, hd, if_pos]
        apply ih hnd' _ _ k v htail
        rw [lookup_append_none s [(kd, vd)] k hnone]
        simp [List.lookup, show (k == kd) = false from beq_eq_false_iff_ne.mpr hkne]
      · simp only [backfillAux, hd, if_neg, if_false]
        exact ih hnd' _ _ k v htail hnone

/-- Once an update has happened, the back-fill pass reports it. -/
theorem backfillAux_upd_true :
    ∀ (ds : List (String × SVal)) (s : List (String × SVal)),
      (backfillAux ds (s, true)).2 = true := by
  intro ds
  induction ds with
  | nil => intro s; rfl
  | cons d rest ih =>
    intro s
    rcases d with ⟨kd, vd⟩
    by_cases hd : s.lookup kd = none
    · simp only [backfillAux, hd, if_pos]
      exact ih _
    · simp only [backfillAux, hd, if_neg, if_false]
      exact ih _

/-- If some default key is absent, the back-fill pass reports an update. -/
theorem backfillAux_missing_upd :
    ∀ (ds : List (String × SVal)) (s : List (String × SVal)) (upd : Bool)
      (k : String) (v : SVal), (k, v) ∈ ds → s.lookup k = none →
      (backfillAux ds (s, upd)).2 = true := by
  intro ds
  induction ds with
  | nil => intro s upd k v h; simp at h
  | cons d rest ih =>
    intro s upd k v hmem hnone
    rcases d with ⟨kd, vd⟩
    by_cases hd : s.lookup kd = none
    · simp only [backfillAux, hd, if_pos]
      exact backfillAux_upd_true rest _
    · simp only [backfillAux, hd, if_neg, if_false]
      rcases List.mem_cons.mp hmem with heq | htail
      · rcases Prod.mk.injEq .. ▸ heq with ⟨hk, _⟩
        subst hk
        exact absurd hnone hd
      · exact ih s upd k v htail hnone

/-- Claim C9: loading a missing settings file creates it with the defaults and
returns them; loading a corrupt file returns the full defaults without a partial
merge (and without touching the file); loading a parsed file preserves every
present key, back-fills every missing default key with its default value, and
rewrites the file with the merged record whenever a key was missing. -/
theorem claim_C9_load_settings :
    load_settings .missing = (DEFAULT_SETTINGS, .stored DEFAULT_SETTINGS) ∧
    load_settings .corrupt = (DEFAULT_SETTINGS, .corrupt) ∧
    (∀ (kvs : List (String × SVal)) (k : String) (w : SVal),
      kvs.lookup k = some w →
      (load_settings (.stored kvs)).1.lookup k = some w) ∧
    (∀ (kvs : List (String × SVal)) (k : String) (v : SVal),
      (k, v) ∈ DEFAULT_SETTINGS → kvs.lookup k = none →
      (load_settings (.stored kvs)).1.lookup k = some v) ∧
    (∀ (kvs : List (String × SVal)) (k : String) (v : SVal),
      (k, v) ∈ DEFAULT_SETTINGS → kvs.lookup k = none →
      (load_settings (.stored kvs)).2 =
        .stored (load_settings (.stored kvs)).1) := by
  refine ⟨rfl, rfl, ?_, ?_, ?_⟩
  · intro kvs k w h
    simp only [load_settings]
    exact backfillAux_preserves DEFAULT_SETTINGS kvs false k w h
  · intro kvs k v hmem hnone
    simp only [load_settings]
    exact backfillAux_fills DEFAULT_SETTINGS (by decide) kvs false k v hmem hnone
  · intro kvs k v hmem hnone
    simp only [load_settings]
    rw [backfillAux_missing_upd DEFAULT_SETTINGS kvs false k v hmem hnone]
    simp

/-- Witness for C9: a stored file holding only a `browser` override keeps that
value, gets `runs_per_url` back-filled with its default 3, and is rewritten. -/
theorem claim_C9_load_settings_witness :
    (load_settings (.stored [("browser", .vStr "Firefox")])).1.lookup "browser" =
      some (.vStr "Firefox") ∧
    (load_settings (.stored [("browser", .vStr "Firefox")])).1.lookup "runs_per_url" =
      some (.vInt 3) ∧
    (load_settings (.stored [("browser", .vStr "Firefox")])).2 =
      .stored (load_settings (.stored [("browser", .vStr "Firefox")])).1 := by
  refine ⟨claim_C9_load_settings.2.2.1 _ "browser" (.vStr "Firefox") (by decide),
    claim_C9_load_settings.2.2.2.1 _ "runs_per_url" (.vInt 3) (by decide) (by decide),
    claim_C9_load_settings.2.2.2.2 _ "runs_per_url" (.vInt 3) (by decide) (by decide)⟩

/-! ### JSON round-trip lemmas -/

/-- `mapOption` inverts an element-wise encoding. -/
theorem mapOption_map_encode {α β : Type} (enc : α → β) (dec : β → Option α)
    (h : ∀ a, dec (enc a) = some a) :
    ∀ l : List α, mapOption dec (l.map enc) = some l := by
  intro l
  induction l with
  | nil => rfl
  | cons a rest ih => simp [mapOption, h a, ih]

/-- Decoding inverts the settings-value encoding. -/
theorem decodeSVal_encode : ∀ v : SVal, decodeSVal (encodeSVal v) = some v := by
  intro v
  cases v with
  | vStr s => rfl
  | vInt i => simp [encodeSVal, decodeSVal]
  | vBool b => rfl
  | vStrList xs =>
    simp only [encodeSVal, decodeSVal]
    rw [mapOption_map_encode JVal.jstr (fun j =>
      match j with
      | JVal.jstr s => some s
      | _ => none) (fun a => rfl) xs]
    rfl

/-- Decoding inverts the navigation-timing encoding. -/
theorem decodeNavVal_encode : ∀ v : NavTimingVal,
    decodeNavVal (encodeNavVal v) = some v := by
  intro v
  cases v with
  | errMark m => rfl
  | timingData nt =>
    simp [encodeNavVal, encodeNavTimingOut, decodeNavVal, jInt, List.lookup]

/-- Decoding inverts the run-result encoding. -/
theorem decodeRunResult_encode (r : RunResult) :
    decodeRunResult (encodeRunResult r) = some r := by
  obtain ⟨url, lt, st, em, nav, ts, rn, cfg⟩ := r
  have hcfg : mapOption (fun kv => (decodeSVal kv.2).map fun v => (kv.1, v))
      (cfg.map fun kv => (kv.1, encodeSVal kv.2)) = some cfg := by
    induction cfg with
    | nil => rfl
    | cons kv rest ih => simp [mapOption, decodeSVal_encode, ih]
  cases em with
  | none =>
    cases nav with
    | none =>
      simp [encodeRunResult, decodeRunResult, runResultFields, List.lookup, hcfg]
    | some v =>
      cases v with
      | errMark m =>
        have hnv := decodeNavVal_encode (.errMark m)
        simp only [encodeNavVal] at hnv
        simp [encodeRunResult, decodeRunResult, runResultFields, List.lookup,
          encodeNavVal, hcfg, hnv]
      | timingData nt =>
        have hnv := decodeNavVal_encode (.timingData nt)
        simp only [encodeNavVal, encodeNavTimingOut] at hnv
        simp [encodeRunResult, decodeRunResult, runResultFields, List.lookup,
          encodeNavVal, encodeNavTimingOut, hcfg, hnv]
  | some m =>
    cases nav with
    | none =>
      simp [encodeRunResult, decodeRunResult, runResultFields, List.lookup, hcfg]
    | some v =>
      cases v with
      | errMark m2 =>
        have hnv := decodeNavVal_encode (.errMark m2)
        simp only [encodeNavVal] at hnv
        simp [encodeRunResult, decodeRunResult, runResultFields, List.lookup,
          encodeNavVal, hcfg, hnv]
      | timingData nt =>
        have hnv := decodeNavVal_encode (.timingData nt)
        simp only [encodeNavVal, encodeNavTimingOut] at hnv
        simp [encodeRunResult, decodeRunResult, runResultFields, List.lookup,
          encodeNavVal, encodeNavTimingOut, hcfg, hnv]

/-- On association lists with distinct keys, lookup is invariant under
permutation of the entries (a JSON object reader does not depend on field
order). -/
theorem lookup_perm {β : Type} :
    ∀ {l₁ l₂ : List (String × β)}, l₁.Perm l₂ → (l₁.map Prod.fst).Nodup →
      ∀ k, l₁.lookup k = l₂.lookup k := by
  intro l₁ l₂ hp
  induction hp with
  | nil => intro _ k; rfl
  | cons x _ ih =>
    intro hnd k
    rcases x with ⟨kx, vx⟩
    rw [List.map_cons] at hnd
    simp only [List.lookup]
    cases hbe : k == kx with
    | true => rfl
    | false => exact ih (List.nodup_cons.mp hnd).2 k
  | swap x y l =>
    intro hnd k
    rcases x with ⟨kx, vx⟩
    rcases y with ⟨ky, vy⟩
    simp only [List.map_cons, List.nodup_cons, List.mem_cons] at hnd
    have hne : ky ≠ kx := fun h => hnd.1 (Or.inl h)
    simp only [List.lookup]
    cases hbe1 : k == ky with
    | true =>
      have hk1 : k = ky := eq_of_beq hbe1
      have hbe2 : (k == kx) = false :=
        beq_eq_false_iff_ne.mpr (by rw [hk1]; exact hne)
      rw [hbe2]
    | false =>
      cases hbe2 : k == kx with
      | true => rfl
      | false => rfl
  | trans h12 _ ih1 ih2 =>
    intro hnd k
    have hnd2 := ((h12.map Prod.fst).nodup_iff).mp hnd
    exact (ih1 hnd k).trans (ih2 hnd2 k)

/-- The field names of an encoded run result, in encoding order. -/
theorem runResultFields_keys (r : RunResult) :
    (runResultFields r).map Prod.fst =
      ["url", "load_time_ms", "status", "error_message", "navigation_timing",
       "timestamp", "run_number", "config"] := rfl

/-- Decoding a run-result object succeeds on any permutation of its fields:
the reparse is insensitive to JSON field order. -/
theorem decodeRunResult_perm (r : RunResult) (kvs : List (String × JVal))
    (hp : kvs.Perm (runResultFields r)) :
    decodeRunResult (.jobj kvs) = some r := by
  have hnd : ((runResultFields r).map Prod.fst).Nodup := by
    rw [runResultFields_keys]
    decide
  have hndkvs : (kvs.map Prod.fst).Nodup :=
    ((hp.map Prod.fst).nodup_iff).mpr hnd
  have hlk : ∀ k, kvs.lookup k = (runResultFields r).lookup k :=
    lookup_perm hp hndkvs
  have h := decodeRunResult_encode r
  rw [encodeRunResult] at h
  simp only [decodeRunResult] at h ⊢
  rw [hlk "url", hlk "load_time_ms", hlk "status", hlk "error_message",
    hlk "navigation_timing", hlk "timestamp", hlk "run_number", hlk "config"]
  exact h

/-- Claim C8: the JSON export object has exactly the keys `summary_report`,
`raw_results` and `test_configuration`; its `test_configuration` member is the
settings record minus its `results` field; reparsing its `raw_results` member
recovers the in-memory result sequence exactly; and the per-result reparse is
insensitive to field order. -/
theorem claim_C8_json_export_roundtrip :
    ∀ (settings : List (String × SVal)) (results_data : List RunResult),
      jKeys (export_report_json settings results_data) =
        ["summary_report", "raw_results", "test_configuration"] ∧
      jLookup (export_report_json settings results_data) "test_configuration" =
        some (.jobj ((settings.filter fun kv => kv.1 ≠ "results").map fun kv =>
          (kv.1, encodeSVal kv.2))) ∧
      decodeRawResults
        (jLookup (export_report_json settings results_data) "raw_results") =
        some results_data ∧
      (∀ (r : RunResult) (kvs : List (String × JVal)),
        kvs.Perm (runResultFields r) → decodeRunResult (.jobj kvs) = some r) := by
  intro settings rd
  refine ⟨rfl, rfl, ?_, fun r kvs hp => decodeRunResult_perm r kvs hp⟩
  have hraw : jLookup (export_report_json settings rd) "raw_results" =
      some (.jarr (rd.map encodeRunResult)) := rfl
  rw [hraw]
  simp only [decodeRawResults]
  exact mapOption_map_encode encodeRunResult decodeRunResult
    decodeRunResult_encode rd

/-- Witness for C8: the default settings and a single successful result; the
reversed field list of its encoding still decodes to it. -/
theorem claim_C8_json_export_roundtrip_witness :
    jKeys (export_report_json DEFAULT_SETTINGS [exR 100 1]) =
      ["summary_report", "raw_results", "test_configuration"] ∧
    decodeRawResults
      (jLookup (export_report_json DEFAULT_SETTINGS [exR 100 1]) "raw_results") =
      some [exR 100 1] ∧
    decodeRunResult (.jobj (runResultFields (exR 100 1)).reverse) =
      some (exR 100 1) := by
  have h := claim_C8_json_export_roundtrip DEFAULT_SETTINGS [exR 100 1]
  exact ⟨h.1, h.2.2.1, h.2.2.2 (exR 100 1) _ (List.reverse_perm _)⟩
